import Mathlib

/-!
Shallow embedding of the tmick framework core: the IoC container
(CustomContainer), the handler registry (HandlerRegistry), the three
dispatchers (CommandDispatcher, QueryDispatcher, EventDispatcher) and the
orchestrator (Tmick). Translated from the TypeScript sources in
packages/cqrs-core/src. JavaScript Map objects are modelled as association
lists with first-match lookup; object identity is modelled by an allocation
counter (field fresh of the container state); decorator metadata, written at
class definition time, is modelled as a fixed environment mapping class ids
to their metadata (ClassInfo). Recursion in CustomContainer.get is modelled
with an explicit fuel parameter; fuel exhaustion is a distinguished error
that never arises in actual runs with enough fuel.
-/

/-- Association list lookup, first match wins (models Map.get). -/
def mapFind {K V : Type} [DecidableEq K] : List (K × V) → K → Option V
  | [], _ => none
  | (k', v') :: rest, k => if k' = k then some v' else mapFind rest k

/-- Association list update (models Map.set): replaces the first binding in
place, else appends, preserving insertion order like a JavaScript Map. -/
def mapSet {K V : Type} [DecidableEq K] : List (K × V) → K → V → List (K × V)
  | [], k, v => [(k, v)]
  | (k', v') :: rest, k, v => if k' = k then (k, v) :: rest else (k', v') :: mapSet rest k v

/-- Association list removal (models Map.delete): removes every binding for
the key, so lookup afterwards is none even on malformed duplicate lists. -/
def mapDelete {K V : Type} [DecidableEq K] (m : List (K × V)) (k : K) : List (K × V) :=
  m.filter (fun p => p.1 ≠ k)

theorem mapFind_mapSet_self {K V : Type} [DecidableEq K] (m : List (K × V)) (k : K) (v : V) :
    mapFind (mapSet m k v) k = some v := by
  induction m with
  | nil => simp [mapSet, mapFind]
  | cons p rest ih =>
    by_cases h : p.1 = k <;> simp [mapSet, mapFind, h, ih]

theorem mapFind_mapSet_ne {K V : Type} [DecidableEq K] (m : List (K × V)) (k k' : K) (v : V)
    (h : k' ≠ k) : mapFind (mapSet m k v) k' = mapFind m k' := by
  induction m with
  | nil =>
    have h' : ¬ k = k' := fun hh => h hh.symm
    simp [mapSet, mapFind, h']
  | cons p rest ih =>
    by_cases hp : p.1 = k
    · subst hp
      have h' : ¬ p.1 = k' := fun hh => h hh.symm
      simp [mapSet, mapFind, h']
    · simp only [mapSet, if_neg hp, mapFind]
      by_cases hp' : p.1 = k' <;> simp [hp', ih]

theorem mapFind_mapDelete_self {K V : Type} [DecidableEq K] (m : List (K × V)) (k : K) :
    mapFind (mapDelete m k) k = none := by
  induction m with
  | nil => simp [mapDelete, mapFind]
  | cons p rest ih =>
    by_cases h : p.1 = k
    · simpa [mapDelete, List.filter_cons, h] using ih
    · simpa [mapDelete, List.filter_cons, h, mapFind] using ih

/-- Service identifiers: a string name, a Token object or a class
constructor (ServiceIdentifier in types.ts). Tokens and constructors carry a
numeric id standing for JavaScript object identity, plus their name. -/
inductive Ident where
  | str (s : String)
  | token (tid : Nat) (name : String)
  | ctorId (cid : Nat) (name : String)
deriving DecidableEq, Repr

/-- A resolved service instance: allocId models reference identity (each
construction draws a fresh value from the container allocation counter);
args records the constructor arguments (none models an undefined argument
from a sparse dependency hole). -/
structure Obj where
  allocId : Nat
  args : List (Option Nat)
deriving DecidableEq, Repr

/-- Errors: msg models a thrown Error with its message string, typeError a
JavaScript TypeError from a null member access, outOfFuel is the artifact of
the fuel bound (never arises with enough fuel). -/
inductive Err where
  | msg (s : String)
  | typeError (s : String)
  | outOfFuel
deriving DecidableEq, Repr

instance {ε α : Type} [DecidableEq ε] [DecidableEq α] : DecidableEq (Except ε α) := fun a b =>
  match a, b with
  | .error e₁, .error e₂ =>
    if h : e₁ = e₂ then .isTrue (by rw [h]) else .isFalse (fun hc => by cases hc; exact h rfl)
  | .ok v₁, .ok v₂ =>
    if h : v₁ = v₂ then .isTrue (by rw [h]) else .isFalse (fun hc => by cases hc; exact h rfl)
  | .error _, .ok _ => .isFalse (fun hc => by cases hc)
  | .ok _, .error _ => .isFalse (fun hc => by cases hc)

/-- Injectable metadata (key cqrs:injectable-service), written by the
Injectable decorator: the registration identifier (opts.id or the class
itself) and the lifecycle flag from the Singleton or Transient decorator,
defaulting to singleton. -/
structure InjMeta where
  id : Ident
  singleton : Bool
deriving DecidableEq, Repr

/-- Per-class decorator metadata. paramDeps is the sparse array written by
the Inject parameter decorator (none is a hole at an undeclared index);
classDeps and stringDeps model the other two metadata keys read by
getMetadataDependencies. -/
structure ClassInfo where
  name : String
  injectable : Option InjMeta
  paramDeps : List (Option Ident)
  classDeps : Option (List (Option Ident))
  stringDeps : List (Option Ident)
deriving DecidableEq, Repr

/-- The reflection metadata store: class id to metadata. Written at class
definition time, fixed during container operation. -/
def Env : Type := Nat → ClassInfo

/-- The identifier of a class constructor, carrying the class name. -/
def ctorIdent (env : Env) (cid : Nat) : Ident := .ctorId cid (env cid).name

/-- Service descriptors (ServiceDescriptor in types.ts): factory,
constructor or instance. The factory function body is user code; the model
keeps only the fact that invoking it constructs a fresh object. -/
inductive Descriptor where
  | factory (singleton : Bool)
  | ctorD (cid : Nat) (singleton : Bool) (canonicalDependencies : List (Option Ident))
  | instD (inst : Obj)
deriving DecidableEq, Repr

/-- The singleton flag of a descriptor; instance descriptors always carry
singleton true (registerInstance stores singleton: true). -/
def Descriptor.isSingleton : Descriptor → Bool
  | .factory s => s
  | .ctorD _ s _ => s
  | .instD _ => true

/-- State of a CustomContainer: the three maps (services, instances,
stringToIdentifierMap), the allocation counter fresh (models JavaScript
object identity for constructed instances and container-created tokens) and
a ghost counter fallbacks of completed auto-registration fallbacks. -/
structure ContainerState where
  services : List (Ident × Descriptor)
  instances : List (Ident × Obj)
  stringToIdentifierMap : List (String × Ident)
  fresh : Nat
  fallbacks : Nat
deriving DecidableEq, Repr

/-- A container with no registrations. -/
def stEmpty : ContainerState :=
  { services := [], instances := [], stringToIdentifierMap := [], fresh := 0, fallbacks := 0 }

/-- CustomContainer.getCanonicalIdentifier: a string resolves through the
stringToIdentifierMap, defaulting to the string itself; any other
identifier is already canonical. -/
def getCanonicalIdentifier (st : ContainerState) : Ident → Ident
  | .str s => (mapFind st.stringToIdentifierMap s).getD (.str s)
  | i => i

/-- CustomContainer.getIdentifierName. All identifier forms carry a name in
the model, so the Unknown branch of the source is unreachable. -/
def getIdentifierName : Ident → String
  | .str s => s
  | .token _ name => name
  | .ctorId _ name => name

/-- CustomContainer.addIdentifierMapping: a string not yet mapped is mapped
to the supplied primary identifier, or to a freshly created Token of the
same name; a Token or constructor is indexed under its own name when that
name is unmapped. Existing mappings are never overwritten. -/
def addIdentifierMapping (st : ContainerState) (identifier : Ident)
    (primaryIdentifier : Option Ident) : ContainerState :=
  match identifier with
  | .str s =>
    if (mapFind st.stringToIdentifierMap s).isSome then st
    else
      match primaryIdentifier with
      | some p => { st with stringToIdentifierMap := mapSet st.stringToIdentifierMap s p }
      | none =>
        { st with stringToIdentifierMap := mapSet st.stringToIdentifierMap s (.token st.fresh s),
                  fresh := st.fresh + 1 }
  | .token _ name =>
    if (mapFind st.stringToIdentifierMap name).isSome then st
    else { st with stringToIdentifierMap := mapSet st.stringToIdentifierMap name identifier }
  | .ctorId _ name =>
    if (mapFind st.stringToIdentifierMap name).isSome then st
    else { st with stringToIdentifierMap := mapSet st.stringToIdentifierMap name identifier }

/-- CustomContainer.registerFactory. The overwrite warning is a console
side effect with no state change and is not modelled. -/
def registerFactory (st : ContainerState) (identifier : Ident) (singleton : Bool) :
    ContainerState :=
  let st1 := addIdentifierMapping st identifier none
  let c := getCanonicalIdentifier st1 identifier
  { st1 with services := mapSet st1.services c (.factory singleton),
             instances := mapDelete st1.instances c }

/-- CustomContainer.registerConstructor: maps a string identifier to the
constructor, stores a constructor descriptor with the pre-resolved
canonical dependency list, and clears any stale cached instance. -/
def registerConstructor (env : Env) (st : ContainerState) (identifier : Ident) (cid : Nat)
    (singleton : Bool) (canonicalDependencies : List (Option Ident)) : ContainerState :=
  let st1 := addIdentifierMapping st identifier (some (ctorIdent env cid))
  let c := getCanonicalIdentifier st1 identifier
  { st1 with services := mapSet st1.services c (.ctorD cid singleton canonicalDependencies),
             instances := mapDelete st1.instances c }

/-- CustomContainer.registerInstance: stores an instance descriptor and
immediately seeds the instance cache. -/
def registerInstance (st : ContainerState) (identifier : Ident) (inst : Obj) : ContainerState :=
  let st1 := addIdentifierMapping st identifier none
  let c := getCanonicalIdentifier st1 identifier
  { st1 with services := mapSet st1.services c (.instD inst),
             instances := mapSet st1.instances c inst }

/-- CustomContainer.clear. The ghost counters are allocation bookkeeping,
not map contents, and are retained. -/
def containerClear (st : ContainerState) : ContainerState :=
  { st with services := [], instances := [], stringToIdentifierMap := [] }

/-- CustomContainer.getMetadataDependencies: paramDeps win when non-empty,
then classDeps when the metadata key is present at all (even an empty
array), then stringDeps when non-empty, else the empty list. -/
def getMetadataDependencies (env : Env) (cid : Nat) : List (Option Ident) :=
  if (env cid).paramDeps.length > 0 then (env cid).paramDeps
  else
    match (env cid).classDeps with
    | some deps => deps
    | none => if (env cid).stringDeps.length > 0 then (env cid).stringDeps else []

/-- The not-registered error of CustomContainer.get, naming the
identifier. -/
def notRegisteredErr (identifier : Ident) : Err :=
  .msg ("Service \x27" ++ getIdentifierName identifier ++ "\x27 not registered.")

/-- CustomContainer.resolveDependencies, parameterized by the recursive
resolver g standing for this.get. Array.prototype.map skips sparse holes
and keeps them in place; spreading the result passes undefined at each
hole, so a hole contributes none without any resolver call. -/
def resolveDepsWith (g : ContainerState → Ident → ContainerState × Except Err Obj) :
    ContainerState → List (Option Ident) → ContainerState × Except Err (List (Option Nat))
  | st, [] => (st, .ok [])
  | st, none :: rest =>
    match resolveDepsWith g st rest with
    | (st', .error e) => (st', .error e)
    | (st', .ok args) => (st', .ok (none :: args))
  | st, some dep :: rest =>
    match g st dep with
    | (st', .error e) => (st', .error e)
    | (st', .ok v) =>
      match resolveDepsWith g st' rest with
      | (st'', .error e) => (st'', .error e)
      | (st'', .ok args) => (st'', .ok (some v.allocId :: args))

/-- CustomContainer.resolveService: an instance descriptor returns the
stored instance, a factory descriptor invokes the factory (modelled as
constructing a fresh object), a constructor descriptor resolves the
declared dependencies left to right and then instantiates. -/
def resolveServiceWith (g : ContainerState → Ident → ContainerState × Except Err Obj)
    (st : ContainerState) (descriptor : Descriptor) : ContainerState × Except Err Obj :=
  match descriptor with
  | .instD inst => (st, .ok inst)
  | .factory _ => ({ st with fresh := st.fresh + 1 }, .ok { allocId := st.fresh, args := [] })
  | .ctorD _ _ canonicalDependencies =>
    match resolveDepsWith g st canonicalDependencies with
    | (st', .error e) => (st', .error e)
    | (st', .ok dependencies) =>
      ({ st' with fresh := st'.fresh + 1 }, .ok { allocId := st'.fresh, args := dependencies })

/-- CustomContainer.handleAutoRegistration: for a class constructor carrying
injectable metadata, registers a constructor descriptor on the fly under
the metadata identifier (and under the constructor itself when distinct),
resolves it, and on singleton caches the instance under both keys. Returns
ok none when no auto-registration applies, mirroring the null return. -/
def handleAutoWith (env : Env) (g : ContainerState → Ident → ContainerState × Except Err Obj)
    (st : ContainerState) (identifier : Ident) : ContainerState × Except Err (Option Obj) :=
  match identifier with
  | .ctorId cid cname =>
    match (env cid).injectable with
    | none => (st, .ok none)
    | some meta =>
      let serviceId := meta.id
      let metadataDependencies := getMetadataDependencies env cid
      let canonicalDependencies :=
        metadataDependencies.map (fun d => d.map (getCanonicalIdentifier st))
      let autoDescriptor := Descriptor.ctorD cid meta.singleton canonicalDependencies
      let ctorI := Ident.ctorId cid cname
      let st1 := { st with services := mapSet st.services serviceId autoDescriptor,
                           fallbacks := st.fallbacks + 1 }
      let st2 := if serviceId = ctorI then st1
                 else { st1 with services := mapSet st1.services ctorI autoDescriptor }
      match resolveServiceWith g st2 autoDescriptor with
      | (st3, .error e) => (st3, .error e)
      | (st3, .ok inst) =>
        if meta.singleton then
          let st4 := { st3 with instances := mapSet st3.instances serviceId inst }
          let st5 := if serviceId = ctorI then st4
                     else { st4 with instances := mapSet st4.instances ctorI inst }
          (st5, .ok (some inst))
        else (st3, .ok (some inst))
  | _ => (st, .ok none)

/-- CustomContainer.get with a fuel bound on recursion depth: canonicalize,
return a cached instance, else resolve the descriptor (trying the
auto-registration fallback when absent), caching the instance when the
descriptor is a singleton. -/
def getAux (env : Env) : Nat → ContainerState → Ident → ContainerState × Except Err Obj
  | 0, st, _ => (st, .error .outOfFuel)
  | fuel + 1, st, identifier =>
    let canonicalIdentifier := getCanonicalIdentifier st identifier
    match mapFind st.instances canonicalIdentifier with
    | some cached => (st, .ok cached)
    | none =>
      match mapFind st.services canonicalIdentifier with
      | none =>
        match handleAutoWith env (fun s i => getAux env fuel s i) st identifier with
        | (st', .error e) => (st', .error e)
        | (st', .ok (some autoRegisteredService)) => (st', .ok autoRegisteredService)
        | (st', .ok none) => (st', .error (notRegisteredErr identifier))
      | some descriptor =>
        match resolveServiceWith (fun s i => getAux env fuel s i) st descriptor with
        | (st', .error e) => (st', .error e)
        | (st', .ok inst) =>
          if descriptor.isSingleton then
            ({ st' with instances := mapSet st'.instances canonicalIdentifier inst }, .ok inst)
          else (st', .ok inst)

/-- Handler kinds of the registry (the handlerType argument). -/
inductive HandlerKind where
  | command
  | query
  | event
deriving DecidableEq, Repr

/-- The static state of HandlerRegistry: the three handler maps and the
service class list. Handler classes are class ids. This state is
process-wide (static class fields in the source), not per Tmick instance. -/
structure Registry where
  commandHandlersMap : List (String × Nat)
  queryHandlersMap : List (String × Nat)
  eventHandlersMap : List (String × List Nat)
  serviceClasses : List Nat
deriving DecidableEq, Repr

/-- HandlerRegistry.clear. -/
def Registry.clear : Registry :=
  { commandHandlersMap := [], queryHandlersMap := [], eventHandlersMap := [], serviceClasses := [] }

/-- HandlerRegistry.registerServiceClass: idempotent append. -/
def Registry.registerServiceClass (reg : Registry) (serviceClass : Nat) : Registry :=
  if serviceClass ∈ reg.serviceClasses then reg
  else { reg with serviceClasses := reg.serviceClasses ++ [serviceClass] }

/-- HandlerRegistry.register: command and query registrations fail on a
duplicate target type with an error naming it; event registrations append
to the ordered per-type list; every handler class is also recorded as a
service class. -/
def Registry.register (reg : Registry) (handlerClass : Nat) (targetType : String)
    (handlerType : HandlerKind) : Except Err Registry :=
  match handlerType with
  | .command =>
    if (mapFind reg.commandHandlersMap targetType).isSome then
      .error (.msg ("Command handler for \x27" ++ targetType ++ "\x27 already registered."))
    else
      .ok (Registry.registerServiceClass
        { reg with commandHandlersMap := mapSet reg.commandHandlersMap targetType handlerClass }
        handlerClass)
  | .query =>
    if (mapFind reg.queryHandlersMap targetType).isSome then
      .error (.msg ("Query handler for \x27" ++ targetType ++ "\x27 already registered."))
    else
      .ok (Registry.registerServiceClass
        { reg with queryHandlersMap := mapSet reg.queryHandlersMap targetType handlerClass }
        handlerClass)
  | .event =>
    let existingEventHandlers := (mapFind reg.eventHandlersMap targetType).getD []
    let newMap := mapSet reg.eventHandlersMap targetType (existingEventHandlers ++ [handlerClass])
    .ok (Registry.registerServiceClass { reg with eventHandlersMap := newMap } handlerClass)

/-- HandlerRegistry.getRegistrations: all commands, then all queries, then
all events, each flattened in map iteration order. -/
def Registry.getRegistrations (reg : Registry) : List (Nat × String × HandlerKind) :=
  reg.commandHandlersMap.map (fun p => (p.2, p.1, HandlerKind.command))
    ++ reg.queryHandlersMap.map (fun p => (p.2, p.1, HandlerKind.query))
    ++ (reg.eventHandlersMap.map
        (fun p => p.2.map (fun h => (h, p.1, HandlerKind.event)))).flatten

/-- CommandDispatcher state: the command name to handler identifier map. -/
structure CommandDispatcher where
  handlers : List (String × Ident)
deriving DecidableEq, Repr

/-- CommandDispatcher.registerHandler: fails on a duplicate command name. -/
def CommandDispatcher.registerHandler (cd : CommandDispatcher) (commandName : String)
    (handlerIdentifier : Ident) : Except Err CommandDispatcher :=
  if (mapFind cd.handlers commandName).isSome then
    .error (.msg ("Command handler for \x27" ++ commandName ++ "\x27 already registered."))
  else .ok { handlers := mapSet cd.handlers commandName handlerIdentifier }

/-- CommandDispatcher.dispatch: derive the command name, look up the
handler identifier, fail when absent, else resolve the handler from the
container and invoke handle. The parameter handle stands for the user
handler method body. -/
def CommandDispatcher.dispatch (cd : CommandDispatcher) (env : Env)
    (handle : Obj → String → Except Err Obj) (fuel : Nat) (st : ContainerState)
    (commandName : String) : ContainerState × Except Err Obj :=
  match mapFind cd.handlers commandName with
  | none =>
    (st, .error (.msg ("No handler registered for command \x27" ++ commandName ++ "\x27.")))
  | some handlerIdentifier =>
    match getAux env fuel st handlerIdentifier with
    | (st', .error e) => (st', .error e)
    | (st', .ok handler) => (st', handle handler commandName)

/-- QueryDispatcher state. -/
structure QueryDispatcher where
  handlers : List (String × Ident)
deriving DecidableEq, Repr

/-- QueryDispatcher.registerHandler: fails on a duplicate query name. -/
def QueryDispatcher.registerHandler (qd : QueryDispatcher) (queryName : String)
    (handlerIdentifier : Ident) : Except Err QueryDispatcher :=
  if (mapFind qd.handlers queryName).isSome then
    .error (.msg ("Query handler for \x27" ++ queryName ++ "\x27 already registered."))
  else .ok { handlers := mapSet qd.handlers queryName handlerIdentifier }

/-- QueryDispatcher.dispatch, identical in shape to the command case. -/
def QueryDispatcher.dispatch (qd : QueryDispatcher) (env : Env)
    (handle : Obj → String → Except Err Obj) (fuel : Nat) (st : ContainerState)
    (queryName : String) : ContainerState × Except Err Obj :=
  match mapFind qd.handlers queryName with
  | none =>
    (st, .error (.msg ("No handler registered for query \x27" ++ queryName ++ "\x27.")))
  | some handlerIdentifier =>
    match getAux env fuel st handlerIdentifier with
    | (st', .error e) => (st', .error e)
    | (st', .ok handler) => (st', handle handler queryName)

/-- A domain event, identified by its constructor name. -/
structure DEvent where
  ctorName : String
deriving DecidableEq, Repr

/-- Trace entries of event dispatch: handler handlerIdx of the event at
position eventIdx started, or settled (completed or threw). -/
inductive TEntry where
  | start (eventIdx handlerIdx : Nat)
  | finish (eventIdx handlerIdx : Nat)
deriving DecidableEq, Repr

/-- The event position an entry belongs to. -/
def TEntry.batchOf : TEntry → Nat
  | .start i _ => i
  | .finish i _ => i

/-- The first rejection among the settled handler results of one event,
modelling the rejection of Promise.all over the batch. -/
def firstErr : List (Except Err Unit) → Option Err
  | [] => none
  | .ok _ :: rest => firstErr rest
  | .error e :: _ => some e

/-- EventDispatcher state: event name to the ordered handler identifier
list. -/
structure EventDispatcher where
  handlers : List (String × List Ident)
deriving DecidableEq, Repr

/-- EventDispatcher.registerHandler: appends with no duplicate check. -/
def EventDispatcher.registerHandler (ed : EventDispatcher) (eventName : String)
    (handlerIdentifier : Ident) : EventDispatcher :=
  let existingHandlers := (mapFind ed.handlers eventName).getD []
  { handlers := mapSet ed.handlers eventName (existingHandlers ++ [handlerIdentifier]) }

/-- EventDispatcher.dispatch from event position i onward. Each event is
processed in list order; its handlers all start (the async bodies are
created together), all settle (single-threaded cooperative interleaving is
abstracted: the trace only records that every start and settle of one event
falls inside that event block), and Promise.all is awaited before the next
event; a rejection aborts the loop. The parameter run stands for resolving
one handler from the container and awaiting its handle call. -/
def EventDispatcher.dispatchFrom (run : DEvent → Ident → Except Err Unit)
    (ed : EventDispatcher) : Nat → List DEvent → Except Err Unit × List TEntry
  | _, [] => (.ok (), [])
  | i, event :: rest =>
    let handlerIdentifiers := (mapFind ed.handlers event.ctorName).getD []
    let results := handlerIdentifiers.map (fun identifier => run event identifier)
    let block := ((List.range handlerIdentifiers.length).map (TEntry.start i))
      ++ ((List.range handlerIdentifiers.length).map (TEntry.finish i))
    match firstErr results with
    | some e => (.error e, block)
    | none =>
      match EventDispatcher.dispatchFrom run ed (i + 1) rest with
      | (r, tr) => (r, block ++ tr)

/-- EventDispatcher.dispatch over a whole event list. -/
def EventDispatcher.dispatch (ed : EventDispatcher) (run : DEvent → Ident → Except Err Unit)
    (events : List DEvent) : Except Err Unit × List TEntry :=
  EventDispatcher.dispatchFrom run ed 0 events

/-- The four framework tokens created at module load (tokens.ts); ids 0 to
3 model their object identities. -/
def eventDispatcherToken : Ident := .token 0 "IEventDispatcher"

def commandDispatcherToken : Ident := .token 1 "ICommandDispatcher"

def queryDispatcherToken : Ident := .token 2 "IQueryDispatcher"

def iServiceContainerToken : Ident := .token 3 "IServiceContainer"

/-- Tmick orchestrator state: its own container, the three dispatcher
fields (null until autoScanAndRegisters assigns them, modelled as none) and
the initialized flag (field inited). -/
structure Tmick where
  container : ContainerState
  commandDispatcher : Option CommandDispatcher
  queryDispatcher : Option QueryDispatcher
  eventDispatcher : Option EventDispatcher
  inited : Bool
deriving DecidableEq, Repr

def notInitializedMsg : String := "Tmick Framework not initialized. Call initialize() first."

def alreadyInitializedMsg : String := "Tmick Framework already initialized."

/-- The Tmick constructor: creates a fresh container (allocation ids 0 to 3
being the module level tokens, the container object itself is allocation 4)
and immediately registers the container under its token; the dispatcher
fields start null. -/
def Tmick.new : Tmick :=
  let st0 : ContainerState :=
    { services := [], instances := [], stringToIdentifierMap := [], fresh := 5, fallbacks := 0 }
  let containerObj : Obj := { allocId := 4, args := [] }
  { container := registerInstance st0 iServiceContainerToken containerObj,
    commandDispatcher := none, queryDispatcher := none, eventDispatcher := none,
    inited := false }

/-- Tmick.initialize: only the initialized flag is examined and set. -/
def Tmick.init (t : Tmick) : Except Err Tmick :=
  if t.inited then .error (.msg alreadyInitializedMsg)
  else .ok { t with inited := true }

/-- Tmick.get: guarded by the initialized flag, then delegates to the
container. -/
def Tmick.get (t : Tmick) (env : Env) (fuel : Nat) (identifier : Ident) :
    Tmick × Except Err Obj :=
  if !t.inited then (t, .error (.msg notInitializedMsg))
  else
    match getAux env fuel t.container identifier with
    | (st', r) => ({ t with container := st' }, r)

/-- Tmick.executeCommand: guarded by the initialized flag; a null
commandDispatcher field then raises a TypeError on the dispatch access. -/
def Tmick.executeCommand (t : Tmick) (env : Env) (handle : Obj → String → Except Err Obj)
    (fuel : Nat) (commandName : String) : Tmick × Except Err Obj :=
  if !t.inited then (t, .error (.msg notInitializedMsg))
  else
    match t.commandDispatcher with
    | none => (t, .error (.typeError "dispatch"))
    | some cd =>
      match cd.dispatch env handle fuel t.container commandName with
      | (st', r) => ({ t with container := st' }, r)

/-- Tmick.executeQuery, same shape as executeCommand. -/
def Tmick.executeQuery (t : Tmick) (env : Env) (handle : Obj → String → Except Err Obj)
    (fuel : Nat) (queryName : String) : Tmick × Except Err Obj :=
  if !t.inited then (t, .error (.msg notInitializedMsg))
  else
    match t.queryDispatcher with
    | none => (t, .error (.typeError "dispatch"))
    | some qd =>
      match qd.dispatch env handle fuel t.container queryName with
      | (st', r) => ({ t with container := st' }, r)

/-- Tmick.dispatchEvents: guarded by the initialized flag; a null
eventDispatcher field raises a TypeError. -/
def Tmick.dispatchEvents (t : Tmick) (run : DEvent → Ident → Except Err Unit)
    (events : List DEvent) : Tmick × Except Err Unit :=
  if !t.inited then (t, .error (.msg notInitializedMsg))
  else
    match t.eventDispatcher with
    | none => (t, .error (.typeError "dispatch"))
    | some ed => (t, (ed.dispatch run events).1)

/-- Tmick.getContainer: guarded by the initialized flag. -/
def Tmick.getContainer (t : Tmick) : Except Err ContainerState :=
  if !t.inited then .error (.msg notInitializedMsg)
  else .ok t.container

/-- The debug information assembled by Tmick.getDebugInfo. The handler
registration and service class parts read the process-wide registry, which
is therefore an explicit argument shared by all Tmick instances. -/
structure DebugInfo where
  registeredServices : List String
  handlerRegistrationList : List (Nat × String × HandlerKind)
  serviceClassesForScan : List Nat
  inited : Bool
deriving DecidableEq, Repr

/-- Tmick.getDebugInfo. -/
def Tmick.getDebugInfo (t : Tmick) (reg : Registry) : DebugInfo :=
  { registeredServices := t.container.services.map (fun p => getIdentifierName p.1),
    handlerRegistrationList := Registry.getRegistrations reg,
    serviceClassesForScan := reg.serviceClasses,
    inited := t.inited }

/-- Tmick.dispose: clears this instance container, clears the process-wide
HandlerRegistry and resets the initialized flag; the dispatcher fields are
left as they are. -/
def Tmick.dispose (t : Tmick) (_reg : Registry) : Tmick × Registry :=
  ({ t with container := containerClear t.container, inited := false }, Registry.clear)

/-- The Inject parameter decorator: extends the sparse dependency array
with holes up to the parameter index when too short, then sets the
identifier at that index. -/
def injectAtIndex (existingDeps : List (Option Ident)) (parameterIndex : Nat)
    (identifier : Ident) : List (Option Ident) :=
  let padded :=
    if existingDeps.length ≤ parameterIndex then
      existingDeps ++ List.replicate (parameterIndex + 1 - existingDeps.length) none
    else existingDeps
  padded.set parameterIndex (some identifier)

/-! Preservation and monotonicity lemmas for the container resolution
functions, used to settle the caching claims. -/

theorem resolveDepsWith_strMap (g : ContainerState → Ident → ContainerState × Except Err Obj)
    (hg : ∀ st i, ((g st i).1).stringToIdentifierMap = st.stringToIdentifierMap) :
    ∀ L st, ((resolveDepsWith g st L).1).stringToIdentifierMap = st.stringToIdentifierMap := by
  intro L
  induction L with
  | nil => intro st; simp [resolveDepsWith]
  | cons d rest ih =>
    intro st
    match d with
    | none =>
      simp only [resolveDepsWith]
      split <;> rename_i heq <;>
        simpa [show ((resolveDepsWith g st rest).1) = _ from congrArg Prod.fst heq] using ih st
    | some dep =>
      simp only [resolveDepsWith]
      split <;> rename_i st' r heq
      · simpa [show ((g st dep).1) = st' from congrArg Prod.fst heq] using hg st dep
      · have h1 : st'.stringToIdentifierMap = st.stringToIdentifierMap := by
          simpa [show ((g st dep).1) = st' from congrArg Prod.fst heq] using hg st dep
        split <;> rename_i st'' r' heq' <;>
          · have h2 : st''.stringToIdentifierMap = st'.stringToIdentifierMap := by
              simpa [show ((resolveDepsWith g st' rest).1) = st'' from congrArg Prod.fst heq']
                using ih st'
            simp [h2, h1]

theorem resolveServiceWith_strMap (g : ContainerState → Ident → ContainerState × Except Err Obj)
    (hg : ∀ st i, ((g st i).1).stringToIdentifierMap = st.stringToIdentifierMap) :
    ∀ st d, ((resolveServiceWith g st d).1).stringToIdentifierMap = st.stringToIdentifierMap := by
  intro st d
  match d with
  | .instD inst => simp [resolveServiceWith]
  | .factory s => simp [resolveServiceWith]
  | .ctorD cid s deps =>
    simp only [resolveServiceWith]
    split <;> rename_i st' r heq <;>
      simpa [show ((resolveDepsWith g st deps).1) = st' from congrArg Prod.fst heq]
        using resolveDepsWith_strMap g hg deps st

theorem handleAutoWith_strMap (env : Env)
    (g : ContainerState → Ident → ContainerState × Except Err Obj)
    (hg : ∀ st i, ((g st i).1).stringToIdentifierMap = st.stringToIdentifierMap) :
    ∀ st i, ((handleAutoWith env g st i).1).stringToIdentifierMap = st.stringToIdentifierMap := by
  intro st i
  have key : ∀ st2 dsc st3 (r : Except Err Obj), resolveServiceWith g st2 dsc = (st3, r) →
      st2.stringToIdentifierMap = st.stringToIdentifierMap →
      st3.stringToIdentifierMap = st.stringToIdentifierMap := by
    intro st2 dsc st3 r heq h2
    have := resolveServiceWith_strMap g hg st2 dsc
    rw [heq] at this
    simpa [h2] using this
  match i with
  | .str s => simp [handleAutoWith]
  | .token tid n => simp [handleAutoWith]
  | .ctorId cid cname =>
    simp only [handleAutoWith]
    match hm : (env cid).injectable with
    | none => simp
    | some meta =>
      simp only []
      split <;> rename_i st3 r heq
      · exact key _ _ _ _ heq (by split <;> rfl)
      · have h3 := key _ _ _ _ heq (by split <;> rfl)
        split
        · split <;> simpa using h3
        · simpa using h3

theorem getAux_strMap (env : Env) :
    ∀ fuel st i, ((getAux env fuel st i).1).stringToIdentifierMap = st.stringToIdentifierMap := by
  intro fuel
  induction fuel with
  | zero => intro st i; simp [getAux]
  | succ fuel ih =>
    intro st i
    simp only [getAux]
    split
    · rfl
    · split
      · split <;> rename_i st' r heq <;>
        · have := handleAutoWith_strMap env (fun s j => getAux env fuel s j) (fun s j => ih s j) st i
          rw [heq] at this
          simpa using this
      · rename_i dsc hdsc
        split <;> rename_i st' r heq
        · have := resolveServiceWith_strMap (fun s j => getAux env fuel s j) (fun s j => ih s j) st dsc
          rw [heq] at this
          simpa using this
        · have := resolveServiceWith_strMap (fun s j => getAux env fuel s j) (fun s j => ih s j) st dsc
          rw [heq] at this
          split <;> simpa using this

theorem getAux_canon (env : Env) (fuel : Nat) (st : ContainerState) (i X : Ident) :
    getCanonicalIdentifier ((getAux env fuel st i).1) X = getCanonicalIdentifier st X := by
  match X with
  | .str s => simp [getCanonicalIdentifier, getAux_strMap env fuel st i]
  | .token tid n => rfl
  | .ctorId cid n => rfl

theorem resolveDepsWith_freshMono (g : ContainerState → Ident → ContainerState × Except Err Obj)
    (hg : ∀ st i, st.fresh ≤ ((g st i).1).fresh) :
    ∀ L st, st.fresh ≤ ((resolveDepsWith g st L).1).fresh := by
  intro L
  induction L with
  | nil => intro st; simp [resolveDepsWith]
  | cons d rest ih =>
    intro st
    match d with
    | none =>
      simp only [resolveDepsWith]
      split <;> rename_i heq <;>
        simpa [show ((resolveDepsWith g st rest).1) = _ from congrArg Prod.fst heq] using ih st
    | some dep =>
      simp only [resolveDepsWith]
      split <;> rename_i st' r heq
      · simpa [show ((g st dep).1) = st' from congrArg Prod.fst heq] using hg st dep
      · have h1 : st.fresh ≤ st'.fresh := by
          simpa [show ((g st dep).1) = st' from congrArg Prod.fst heq] using hg st dep
        split <;> rename_i st'' r' heq' <;>
          · have h2 : st'.fresh ≤ st''.fresh := by
              simpa [show ((resolveDepsWith g st' rest).1) = st'' from congrArg Prod.fst heq']
                using ih st'
            simpa using le_trans h1 h2

theorem resolveServiceWith_freshMono (g : ContainerState → Ident → ContainerState × Except Err Obj)
    (hg : ∀ st i, st.fresh ≤ ((g st i).1).fresh) :
    ∀ st d, st.fresh ≤ ((resolveServiceWith g st d).1).fresh := by
  intro st d
  match d with
  | .instD inst => simp [resolveServiceWith]
  | .factory s => simp [resolveServiceWith]
  | .ctorD cid s deps =>
    simp only [resolveServiceWith]
    split <;> rename_i st' r heq <;>
      have h1 : st.fresh ≤ st'.fresh := by
        simpa [show ((resolveDepsWith g st deps).1) = st' from congrArg Prod.fst heq]
          using resolveDepsWith_freshMono g hg deps st
    · exact h1
    · simpa using le_trans h1 (Nat.le_succ _)

theorem handleAutoWith_freshMono (env : Env)
    (g : ContainerState → Ident → ContainerState × Except Err Obj)
    (hg : ∀ st i, st.fresh ≤ ((g st i).1).fresh) :
    ∀ st i, st.fresh ≤ ((handleAutoWith env g st i).1).fresh := by
  intro st i
  have key : ∀ st2 dsc st3 (r : Except Err Obj), resolveServiceWith g st2 dsc = (st3, r) →
      st.fresh ≤ st2.fresh → st.fresh ≤ st3.fresh := by
    intro st2 dsc st3 r heq h2
    have := resolveServiceWith_freshMono g hg st2 dsc
    rw [heq] at this
    simpa using le_trans h2 this
  match i with
  | .str s => simp [handleAutoWith]
  | .token tid n => simp [handleAutoWith]
  | .ctorId cid cname =>
    simp only [handleAutoWith]
    match hm : (env cid).injectable with
    | none => simp
    | some meta =>
      simp only []
      split <;> rename_i st3 r heq
      · exact key _ _ _ _ heq (by split <;> simp)
      · have h3 := key _ _ _ _ heq (by split <;> simp)
        split
        · split <;> simpa using h3
        · simpa using h3

theorem getAux_freshMono (env : Env) :
    ∀ fuel st i, st.fresh ≤ ((getAux env fuel st i).1).fresh := by
  intro fuel
  induction fuel with
  | zero => intro st i; simp [getAux]
  | succ fuel ih =>
    intro st i
    simp only [getAux]
    split
    · simp
    · split
      · split <;> rename_i st' r heq <;>
        · have := handleAutoWith_freshMono env (fun s j => getAux env fuel s j) (fun s j => ih s j) st i
          rw [heq] at this
          simpa using this
      · rename_i dsc hdsc
        split <;> rename_i st' r heq
        · have := resolveServiceWith_freshMono (fun s j => getAux env fuel s j) (fun s j => ih s j) st dsc
          rw [heq] at this
          simpa using this
        · have := resolveServiceWith_freshMono (fun s j => getAux env fuel s j) (fun s j => ih s j) st dsc
          rw [heq] at this
          split <;> simpa using this

theorem resolveDepsWith_fbMono (g : ContainerState → Ident → ContainerState × Except Err Obj)
    (hg : ∀ st i, st.fallbacks ≤ ((g st i).1).fallbacks) :
    ∀ L st, st.fallbacks ≤ ((resolveDepsWith g st L).1).fallbacks := by
  intro L
  induction L with
  | nil => intro st; simp [resolveDepsWith]
  | cons d rest ih =>
    intro st
    match d with
    | none =>
      simp only [resolveDepsWith]
      split <;> rename_i heq <;>
        simpa [show ((resolveDepsWith g st rest).1) = _ from congrArg Prod.fst heq] using ih st
    | some dep =>
      simp only [resolveDepsWith]
      split <;> rename_i st' r heq
      · simpa [show ((g st dep).1) = st' from congrArg Prod.fst heq] using hg st dep
      · have h1 : st.fallbacks ≤ st'.fallbacks := by
          simpa [show ((g st dep).1) = st' from congrArg Prod.fst heq] using hg st dep
        split <;> rename_i st'' r' heq' <;>
          · have h2 : st'.fallbacks ≤ st''.fallbacks := by
              simpa [show ((resolveDepsWith g st' rest).1) = st'' from congrArg Prod.fst heq']
                using ih st'
            simpa using le_trans h1 h2

theorem resolveServiceWith_fbMono (g : ContainerState → Ident → ContainerState × Except Err Obj)
    (hg : ∀ st i, st.fallbacks ≤ ((g st i).1).fallbacks) :
    ∀ st d, st.fallbacks ≤ ((resolveServiceWith g st d).1).fallbacks := by
  intro st d
  match d with
  | .instD inst => simp [resolveServiceWith]
  | .factory s => simp [resolveServiceWith]
  | .ctorD cid s deps =>
    simp only [resolveServiceWith]
    split <;> rename_i st' r heq <;>
      have h1 : st.fallbacks ≤ st'.fallbacks := by
        simpa [show ((resolveDepsWith g st deps).1) = st' from congrArg Prod.fst heq]
          using resolveDepsWith_fbMono g hg deps st
    · exact h1
    · simpa using h1

theorem handleAutoWith_fbMono (env : Env)
    (g : ContainerState → Ident → ContainerState × Except Err Obj)
    (hg : ∀ st i, st.fallbacks ≤ ((g st i).1).fallbacks) :
    ∀ st i, st.fallbacks ≤ ((handleAutoWith env g st i).1).fallbacks := by
  intro st i
  have key : ∀ st2 dsc st3 (r : Except Err Obj), resolveServiceWith g st2 dsc = (st3, r) →
      st.fallbacks ≤ st2.fallbacks → st.fallbacks ≤ st3.fallbacks := by
    intro st2 dsc st3 r heq h2
    have := resolveServiceWith_fbMono g hg st2 dsc
    rw [heq] at this
    simpa using le_trans h2 this
  match i with
  | .str s => simp [handleAutoWith]
  | .token tid n => simp [handleAutoWith]
  | .ctorId cid cname =>
    simp only [handleAutoWith]
    match hm : (env cid).injectable with
    | none => simp
    | some meta =>
      simp only []
      split <;> rename_i st3 r heq
      · exact key _ _ _ _ heq (by split <;> simp)
      · have h3 := key _ _ _ _ heq (by split <;> simp)
        split
        · split <;> simpa using h3
        · simpa using h3

/-- After a completed auto-registration fallback the fallback counter has
strictly increased. -/
theorem handleAutoWith_fbStrict (env : Env)
    (g : ContainerState → Ident → ContainerState × Except Err Obj)
    (hg : ∀ st i, st.fallbacks ≤ ((g st i).1).fallbacks) :
    ∀ st cid cname meta, (env cid).injectable = some meta →
      st.fallbacks < ((handleAutoWith env g st (.ctorId cid cname)).1).fallbacks := by
  intro st cid cname meta hm
  have key : ∀ st2 dsc st3 (r : Except Err Obj), resolveServiceWith g st2 dsc = (st3, r) →
      st.fallbacks < st2.fallbacks → st.fallbacks < st3.fallbacks := by
    intro st2 dsc st3 r heq h2
    have := resolveServiceWith_fbMono g hg st2 dsc
    rw [heq] at this
    simpa using lt_of_lt_of_le h2 this
  simp only [handleAutoWith, hm]
  split <;> rename_i st3 r heq
  · exact key _ _ _ _ heq (by split <;> simp)
  · have h3 := key _ _ _ _ heq (by split <;> simp)
    split
    · split <;> simpa using h3
    · simpa using h3

theorem getAux_fbMono (env : Env) :
    ∀ fuel st i, st.fallbacks ≤ ((getAux env fuel st i).1).fallbacks := by
  intro fuel
  induction fuel with
  | zero => intro st i; simp [getAux]
  | succ fuel ih =>
    intro st i
    simp only [getAux]
    split
    · simp
    · split
      · split <;> rename_i st' r heq <;>
        · have := handleAutoWith_fbMono env (fun s j => getAux env fuel s j) (fun s j => ih s j) st i
          rw [heq] at this
          simpa using this
      · rename_i dsc hdsc
        split <;> rename_i st' r heq
        · have := resolveServiceWith_fbMono (fun s j => getAux env fuel s j) (fun s j => ih s j) st dsc
          rw [heq] at this
          simpa using this
        · have := resolveServiceWith_fbMono (fun s j => getAux env fuel s j) (fun s j => ih s j) st dsc
          rw [heq] at this
          split <;> simpa using this

/-- Relation between container states across a resolution that completed no
auto-registration fallback: the services map is unchanged, and the only new
instance-cache keys are keys whose descriptor in the starting services map
is a singleton. -/
def Untouched (st st' : ContainerState) : Prop :=
  st'.services = st.services ∧
  ∀ k, mapFind st.instances k = none →
    mapFind st'.instances k = none ∨
      ∃ dsc, mapFind st.services k = some dsc ∧ dsc.isSingleton = true

theorem Untouched.refl' (st : ContainerState) : Untouched st st :=
  ⟨rfl, fun _ h => Or.inl h⟩

theorem Untouched.trans' {st st' st'' : ContainerState}
    (h1 : Untouched st st') (h2 : Untouched st' st'') : Untouched st st'' := by
  refine ⟨h2.1.trans h1.1, fun k hk => ?_⟩
  rcases h1.2 k hk with h | h
  · rcases h2.2 k h with h' | h'
    · exact Or.inl h'
    · rcases h' with ⟨dsc, hd, hs⟩
      exact Or.inr ⟨dsc, h1.1 ▸ hd, hs⟩
  · exact Or.inr h

/-- Untouched only depends on the services and instances fields. -/
theorem Untouched.of_fields {st st' st'' : ContainerState} (h : Untouched st st')
    (hs : st''.services = st'.services) (hi : st''.instances = st'.instances) :
    Untouched st st'' := by
  refine ⟨hs ▸ h.1, fun k hk => ?_⟩
  rcases h.2 k hk with h' | h'
  · exact Or.inl (hi ▸ h')
  · exact Or.inr h'

theorem resolveDepsWith_nf (g : ContainerState → Ident → ContainerState × Except Err Obj)
    (hmono : ∀ st i, st.fallbacks ≤ ((g st i).1).fallbacks)
    (hnf : ∀ st i, ((g st i).1).fallbacks = st.fallbacks → Untouched st ((g st i).1)) :
    ∀ L st, ((resolveDepsWith g st L).1).fallbacks = st.fallbacks →
      Untouched st ((resolveDepsWith g st L).1) := by
  intro L
  induction L with
  | nil => intro st _; simpa [resolveDepsWith] using Untouched.refl' st
  | cons d rest ih =>
    intro st
    match d with
    | none =>
      simp only [resolveDepsWith]
      split <;> rename_i heq <;> intro hfb <;>
        · have h1 := congrArg Prod.fst heq
          have := ih st
          rw [h1] at this
          exact this (by simpa using hfb)
    | some dep =>
      simp only [resolveDepsWith]
      split <;> rename_i st' r heq
      · intro hfb
        have h1 := congrArg Prod.fst heq
        have := hnf st dep
        rw [h1] at this
        exact this (by simpa using hfb)
      · have hg1 : ((g st dep).1) = st' := by rw [heq]
        have hmono1 : st.fallbacks ≤ st'.fallbacks := by
          have := hmono st dep; rwa [hg1] at this
        have hnf1 : st'.fallbacks = st.fallbacks → Untouched st st' := by
          intro h; have := hnf st dep; rw [hg1] at this; exact this h
        split <;> rename_i st'' r' heq' <;> intro hfb <;>
          · have hfb2 : st''.fallbacks = st.fallbacks := by simpa using hfb
            have hg2 : ((resolveDepsWith g st' rest).1) = st'' := by rw [heq']
            have hmono2 : st'.fallbacks ≤ st''.fallbacks := by
              have := resolveDepsWith_fbMono g hmono rest st'; rwa [hg2] at this
            have hfb1 : st'.fallbacks = st.fallbacks := by omega
            have hnf2 : Untouched st' st'' := by
              have := ih st'
              rw [hg2] at this
              exact this (by omega)
            simpa using Untouched.trans' (hnf1 hfb1) hnf2

theorem resolveServiceWith_nf (g : ContainerState → Ident → ContainerState × Except Err Obj)
    (hmono : ∀ st i, st.fallbacks ≤ ((g st i).1).fallbacks)
    (hnf : ∀ st i, ((g st i).1).fallbacks = st.fallbacks → Untouched st ((g st i).1)) :
    ∀ st d, ((resolveServiceWith g st d).1).fallbacks = st.fallbacks →
      Untouched st ((resolveServiceWith g st d).1) := by
  intro st d
  match d with
  | .instD inst => intro _; simpa [resolveServiceWith] using Untouched.refl' st
  | .factory s =>
    intro _
    simp only [resolveServiceWith]
    exact Untouched.of_fields (Untouched.refl' st) rfl rfl
  | .ctorD cid s deps =>
    simp only [resolveServiceWith]
    split <;> rename_i st' r heq <;> intro hfb <;>
      · have hg : ((resolveDepsWith g st deps).1) = st' := by rw [heq]
        have := resolveDepsWith_nf g hmono hnf deps st
        rw [hg] at this
        have hu := this (by simpa using hfb)
        exact hu

theorem handleAutoWith_nf (env : Env)
    (g : ContainerState → Ident → ContainerState × Except Err Obj)
    (hmono : ∀ st i, st.fallbacks ≤ ((g st i).1).fallbacks) :
    ∀ st i st' r, handleAutoWith env g st i = (st', r) → st'.fallbacks = st.fallbacks →
      st' = st ∧ r = .ok none := by
  intro st i st' r heq hfb
  match i with
  | .str s =>
    simp [handleAutoWith] at heq
    exact ⟨heq.1.symm, heq.2.symm⟩
  | .token tid n =>
    simp [handleAutoWith] at heq
    exact ⟨heq.1.symm, heq.2.symm⟩
  | .ctorId cid cname =>
    match hm : (env cid).injectable with
    | none =>
      simp [handleAutoWith, hm] at heq
      exact ⟨heq.1.symm, heq.2.symm⟩
    | some meta =>
      exfalso
      have := handleAutoWith_fbStrict env g hmono st cid cname meta hm
      rw [heq] at this
      simp at this
      omega

theorem getAux_nf (env : Env) :
    ∀ fuel st i, ((getAux env fuel st i).1).fallbacks = st.fallbacks →
      Untouched st ((getAux env fuel st i).1) := by
  intro fuel
  induction fuel with
  | zero => intro st i _; simpa [getAux] using Untouched.refl' st
  | succ fuel ih =>
    intro st i
    have hmono : ∀ s j, s.fallbacks ≤ ((getAux env fuel s j).1).fallbacks :=
      fun s j => getAux_fbMono env fuel s j
    simp only [getAux]
    split
    · intro _; exact Untouched.refl' st
    · split
      · split
        · rename_i st' e heq
          intro hfb
          exfalso
          have h := handleAutoWith_nf env (fun s j => getAux env fuel s j) hmono st i st'
            (.error e) heq (by simpa using hfb)
          simpa using h.2
        · rename_i st' v heq
          intro hfb
          exfalso
          have h := handleAutoWith_nf env (fun s j => getAux env fuel s j) hmono st i st'
            (.ok (some v)) heq (by simpa using hfb)
          simpa using h.2
        · rename_i st' heq
          intro hfb
          have h := handleAutoWith_nf env (fun s j => getAux env fuel s j) hmono st i st'
            (.ok none) heq (by simpa using hfb)
          simpa [h.1] using Untouched.refl' st
      · rename_i dsc hdsc
        split <;> rename_i st' r heq
        · intro hfb
          have hg : ((resolveServiceWith (fun s j => getAux env fuel s j) st dsc).1) = st' := by
            rw [heq]
          have := resolveServiceWith_nf (fun s j => getAux env fuel s j) hmono
            (fun s j => ih s j) st dsc
          rw [hg] at this
          simpa using this (by simpa using hfb)
        · intro hfb
          have hg : ((resolveServiceWith (fun s j => getAux env fuel s j) st dsc).1) = st' := by
            rw [heq]
          have hthis := resolveServiceWith_nf (fun s j => getAux env fuel s j) hmono
            (fun s j => ih s j) st dsc
          rw [hg] at hthis
          revert hfb
          split <;> intro hfb
          · rename_i hsing
            have hu : Untouched st st' := hthis (by simpa using hfb)
            refine ⟨by simpa using hu.1, fun k hk => ?_⟩
            by_cases hkc : k = getCanonicalIdentifier st i
            · subst hkc
              exact Or.inr ⟨dsc, hdsc, hsing⟩
            · simp only []
              rw [mapFind_mapSet_ne _ _ _ _ hkc]
              exact hu.2 k hk
          · exact hthis (by simpa using hfb)

theorem canon_eq_of_strMap {st st' : ContainerState}
    (h : st'.stringToIdentifierMap = st.stringToIdentifierMap) (Y : Ident) :
    getCanonicalIdentifier st' Y = getCanonicalIdentifier st Y := by
  match Y with
  | .str s => simp [getCanonicalIdentifier, h]
  | .token tid n => rfl
  | .ctorId cid n => rfl

/-- Resolving a transient descriptor constructs a fresh object: its
allocation id is at least the starting counter and the final counter is one
past it. -/
theorem resolveServiceWith_transient_alloc
    (g : ContainerState → Ident → ContainerState × Except Err Obj)
    (hg : ∀ st i, st.fresh ≤ ((g st i).1).fresh) (st : ContainerState) (d : Descriptor)
    (hsing : d.isSingleton = false) (st' : ContainerState) (v : Obj)
    (heq : resolveServiceWith g st d = (st', .ok v)) :
    st.fresh ≤ v.allocId ∧ st'.fresh = v.allocId + 1 := by
  match d with
  | .instD inst => simp [Descriptor.isSingleton] at hsing
  | .factory s =>
    simp only [resolveServiceWith] at heq
    have h1 : st' = { st with fresh := st.fresh + 1 } := by
      simpa using (congrArg Prod.fst heq).symm
    have h2 : v = { allocId := st.fresh, args := [] } := by
      have := congrArg Prod.snd heq
      simp at this
      exact this.symm
    subst h1; subst h2
    simp
  | .ctorD cid s deps =>
    simp only [resolveServiceWith] at heq
    split at heq <;> rename_i st₂ r heq'
    · simp at heq
    · have hg1 : ((resolveDepsWith g st deps).1) = st₂ := by rw [heq']
      have hmono : st.fresh ≤ st₂.fresh := by
        have := resolveDepsWith_freshMono g hg deps st; rwa [hg1] at this
      have h1 : st' = { st₂ with fresh := st₂.fresh + 1 } := by
        simpa using (congrArg Prod.fst heq).symm
      have h2 : v = { allocId := st₂.fresh, args := r } := by
        have := congrArg Prod.snd heq
        simp at this
        exact this.symm
      subst h1; subst h2
      simpa using hmono

/-- A second get after a successful get of a singleton-registered
identifier (or of any identifier with the same canonical form) returns the
identical cached instance and leaves the state unchanged. -/
theorem singleton_get_again (env : Env) (fuel f₂ : Nat) (st st₁ : ContainerState)
    (X Y : Ident) (v : Obj) (d : Descriptor)
    (hdesc : mapFind st.services (getCanonicalIdentifier st X) = some d)
    (hsing : d.isSingleton = true)
    (hget : getAux env fuel st X = (st₁, .ok v))
    (hY : getCanonicalIdentifier st Y = getCanonicalIdentifier st X) :
    getAux env (f₂ + 1) st₁ Y = (st₁, .ok v) := by
  match fuel with
  | 0 => simp [getAux] at hget
  | fuel + 1 =>
    simp only [getAux] at hget
    split at hget
    · rename_i cached hcache
      have h1 : st = st₁ ∧ cached = v := by
        constructor
        · exact congrArg Prod.fst hget
        · have := congrArg Prod.snd hget; simpa using this
      obtain ⟨h1, h2⟩ := h1
      subst h1; subst h2
      simp only [getAux, hY, hcache]
    · rename_i hcache
      split at hget
      · rename_i hsvc
        rw [hsvc] at hdesc
        simp at hdesc
      · rename_i dsc hsvc
        have hdd : dsc = d := by rw [hsvc] at hdesc; simpa using hdesc
        subst hdd
        split at hget
        · rename_i st' e heq
          simp at hget
        · rename_i st' inst heq
          rw [hsing] at hget
          simp only [if_true] at hget
          have hst1 :
              st₁ = { st' with instances := mapSet st'.instances (getCanonicalIdentifier st X) inst } := by
            simpa using (congrArg Prod.fst hget).symm
          have hv : inst = v := by
            have := congrArg Prod.snd hget; simpa using this
          subst hv
          have hsm : st'.stringToIdentifierMap = st.stringToIdentifierMap := by
            have := resolveServiceWith_strMap (fun s j => getAux env fuel s j)
              (fun s j => getAux_strMap env fuel s j) st dsc
            rw [heq] at this
            simpa using this
          have hsm1 : st₁.stringToIdentifierMap = st.stringToIdentifierMap := by
            rw [hst1]; simpa using hsm
          have hcanon : getCanonicalIdentifier st₁ Y = getCanonicalIdentifier st X := by
            rw [canon_eq_of_strMap hsm1 Y, hY]
          have hfound : mapFind st₁.instances (getCanonicalIdentifier st₁ Y) = some inst := by
            rw [hcanon, hst1]
            simpa using mapFind_mapSet_self st'.instances (getCanonicalIdentifier st X) inst
          simp only [getAux, hfound]

/-- One successful get of a transient-registered identifier that completed
no auto-registration fallback: the result is freshly constructed, the
services map and identifier mappings are unchanged and the canonical key is
still uncached. -/
theorem transient_step (env : Env) (fuel : Nat) (st st₁ : ContainerState) (X : Ident)
    (v : Obj) (d : Descriptor)
    (hdesc : mapFind st.services (getCanonicalIdentifier st X) = some d)
    (hsing : d.isSingleton = false)
    (hcache : mapFind st.instances (getCanonicalIdentifier st X) = none)
    (hget : getAux env fuel st X = (st₁, .ok v))
    (hfb : st₁.fallbacks = st.fallbacks) :
    st.fresh ≤ v.allocId ∧ st₁.fresh = v.allocId + 1 ∧
      st₁.services = st.services ∧
      st₁.stringToIdentifierMap = st.stringToIdentifierMap ∧
      mapFind st₁.instances (getCanonicalIdentifier st X) = none := by
  match fuel with
  | 0 => simp [getAux] at hget
  | fuel + 1 =>
    simp only [getAux] at hget
    split at hget
    · rename_i cached hc
      rw [hcache] at hc
      simp at hc
    · rename_i hc
      split at hget
      · rename_i hsvc
        rw [hsvc] at hdesc
        simp at hdesc
      · rename_i dsc hsvc
        have hdd : dsc = d := by rw [hsvc] at hdesc; simpa using hdesc
        subst hdd
        split at hget
        · rename_i st' e heq
          simp at hget
        · rename_i st' inst heq
          rw [hsing] at hget
          simp only [Bool.false_eq_true, if_false] at hget
          have hst1 : st₁ = st' := by
            simpa using (congrArg Prod.fst hget).symm
          have hv : inst = v := by
            have := congrArg Prod.snd hget; simpa using this
          subst hv
          subst hst1
          have halloc := resolveServiceWith_transient_alloc (fun s j => getAux env fuel s j)
            (fun s j => getAux_freshMono env fuel s j) st dsc hsing st₁ inst heq
          have hsm : st₁.stringToIdentifierMap = st.stringToIdentifierMap := by
            have := resolveServiceWith_strMap (fun s j => getAux env fuel s j)
              (fun s j => getAux_strMap env fuel s j) st dsc
            rw [heq] at this
            simpa using this
          have hunt : Untouched st st₁ := by
            have := resolveServiceWith_nf (fun s j => getAux env fuel s j)
              (fun s j => getAux_fbMono env fuel s j) (fun s j => getAux_nf env fuel s j) st dsc
            rw [heq] at this
            simpa using this (by simpa using hfb)
          have hinst : mapFind st₁.instances (getCanonicalIdentifier st X) = none := by
            rcases hunt.2 (getCanonicalIdentifier st X) hcache with h | h
            · exact h
            · rcases h with ⟨dsc', hd', hs'⟩
              rw [hdesc] at hd'
              simp at hd'
              subst hd'
              rw [hsing] at hs'
              simp at hs'
          exact ⟨halloc.1, halloc.2, hunt.1, hsm, hinst⟩

/-- Metadata environment of the C1 counterexample: class 0 (named D) is
decorated Injectable with an explicit identifier equal to the token the
transient service is registered under; class 1 (named X) has no metadata. -/
def envC1 : Env := fun cid =>
  if cid = 0 then
    { name := "D", injectable := some { id := .token 5 "T", singleton := true },
      paramDeps := [], classDeps := none, stringDeps := [] }
  else { name := "X", injectable := none, paramDeps := [], classDeps := none, stringDeps := [] }

/-- Container of the C1 counterexample: class X registered transient under
the token, declaring the undecorated-in-container class D as dependency. -/
def stC1 : ContainerState :=
  registerConstructor envC1 stEmpty (.token 5 "T") 1 false [some (.ctorId 0 "D")]

/-- C1, counterexample: the token is registered transient and uncached, yet
the first get populates the instance cache for it (the dependency D is
auto-registered under its Injectable id, which is this very token), and the
second get returns the stale cached dependency instance (allocation id 0,
already below the allocation counter 2), not a newly constructed one. -/
theorem claim_c1_counterexample :
    mapFind stC1.services (.token 5 "T")
        = some (.ctorD 1 false [some (.ctorId 0 "D")]) ∧
    mapFind stC1.instances (.token 5 "T") = none ∧
    (getAux envC1 3 stC1 (.token 5 "T")).2 = .ok { allocId := 1, args := [some 0] } ∧
    mapFind ((getAux envC1 3 stC1 (.token 5 "T")).1).instances (.token 5 "T")
        = some { allocId := 0, args := [] } ∧
    (getAux envC1 3 ((getAux envC1 3 stC1 (.token 5 "T")).1) (.token 5 "T")).2
        = .ok { allocId := 0, args := [] } ∧
    ((getAux envC1 3 stC1 (.token 5 "T")).1).fresh = 2 := by
  decide

/-- C1, amended: for a singleton-registered identifier a successful get
followed by a second get returns the reference-identical instance with no
further state change; registerFactory and registerConstructor leave the
canonical key uncached (lazy population) while registerInstance seeds the
cache eagerly; and for a transient-registered identifier, gets that
complete no auto-registration fallback return freshly constructed distinct
instances and never populate the cache for the canonical key. -/
theorem claim_c1_amended (env : Env) (st : ContainerState) (X : Ident) :
    (∀ fuel f₂ st₁ v d, mapFind st.services (getCanonicalIdentifier st X) = some d →
        d.isSingleton = true → getAux env fuel st X = (st₁, .ok v) →
        getAux env (f₂ + 1) st₁ X = (st₁, .ok v)) ∧
    (∀ identifier singleton,
        mapFind (registerFactory st identifier singleton).instances
          (getCanonicalIdentifier (registerFactory st identifier singleton) identifier) = none) ∧
    (∀ identifier cid singleton deps,
        mapFind (registerConstructor env st identifier cid singleton deps).instances
          (getCanonicalIdentifier (registerConstructor env st identifier cid singleton deps)
            identifier) = none) ∧
    (∀ identifier inst,
        mapFind (registerInstance st identifier inst).instances
          (getCanonicalIdentifier (registerInstance st identifier inst) identifier)
          = some inst) ∧
    (∀ f₁ f₂ st₁ st₂ v₁ v₂ d, mapFind st.services (getCanonicalIdentifier st X) = some d →
        d.isSingleton = false →
        mapFind st.instances (getCanonicalIdentifier st X) = none →
        getAux env f₁ st X = (st₁, .ok v₁) → st₁.fallbacks = st.fallbacks →
        getAux env f₂ st₁ X = (st₂, .ok v₂) → st₂.fallbacks = st₁.fallbacks →
        st.fresh ≤ v₁.allocId ∧ st₁.fresh ≤ v₂.allocId ∧ v₁ ≠ v₂ ∧
          mapFind st₁.instances (getCanonicalIdentifier st X) = none ∧
          mapFind st₂.instances (getCanonicalIdentifier st X) = none) := by
  refine ⟨?_, ?_, ?_, ?_, ?_⟩
  · intro fuel f₂ st₁ v d hdesc hsing hget
    exact singleton_get_again env fuel f₂ st st₁ X X v d hdesc hsing hget rfl
  · intro identifier singleton
    exact mapFind_mapDelete_self _ _
  · intro identifier cid singleton deps
    exact mapFind_mapDelete_self _ _
  · intro identifier inst
    exact mapFind_mapSet_self _ _ _
  · intro f₁ f₂ st₁ st₂ v₁ v₂ d hdesc hsing hcache hget₁ hfb₁ hget₂ hfb₂
    obtain ⟨ha1, ha2, hsvc1, hsm1, hinst1⟩ :=
      transient_step env f₁ st st₁ X v₁ d hdesc hsing hcache hget₁ hfb₁
    have hcanon : getCanonicalIdentifier st₁ X = getCanonicalIdentifier st X :=
      canon_eq_of_strMap hsm1 X
    have hdesc₂ : mapFind st₁.services (getCanonicalIdentifier st₁ X) = some d := by
      rw [hcanon, hsvc1]; exact hdesc
    have hcache₂ : mapFind st₁.instances (getCanonicalIdentifier st₁ X) = none := by
      rw [hcanon]; exact hinst1
    obtain ⟨hb1, hb2, hsvc2, hsm2, hinst2⟩ :=
      transient_step env f₂ st₁ st₂ X v₂ d hdesc₂ hsing hcache₂ hget₂ hfb₂
    refine ⟨ha1, hb1, ?_, hinst1, ?_⟩
    · intro hvv
      rw [hvv] at ha2
      omega
    · rw [← hcanon]; exact hinst2

/-- Environment of the C1 witness: no class carries metadata. -/
def envW : Env := fun _ =>
  { name := "C", injectable := none, paramDeps := [], classDeps := none, stringDeps := [] }

/-- Singleton factory registration for the C1 witness. -/
def stW1 : ContainerState := registerFactory stEmpty (.token 9 "S") true

/-- Transient factory registration for the C1 witness. -/
def stW2 : ContainerState := registerFactory stEmpty (.token 9 "S") false

/-- C1 witness: the amended theorem applied to a concrete singleton factory
(second get returns the identical instance) and a concrete transient
factory (two gets construct distinct fresh instances, no caching). -/
theorem claim_c1_amended_witness :
    (getAux envW 1 ((getAux envW 2 stW1 (.token 9 "S")).1) (.token 9 "S")
        = ((getAux envW 2 stW1 (.token 9 "S")).1, .ok { allocId := 0, args := [] })) ∧
    mapFind (registerFactory stEmpty (.str "A") true).instances
      (getCanonicalIdentifier (registerFactory stEmpty (.str "A") true) (.str "A")) = none ∧
    mapFind (registerInstance stEmpty (.str "B") { allocId := 7, args := [] }).instances
      (getCanonicalIdentifier (registerInstance stEmpty (.str "B") { allocId := 7, args := [] })
        (.str "B")) = some { allocId := 7, args := [] } ∧
    (stW2.fresh ≤ (0 : Nat) ∧ ((getAux envW 2 stW2 (.token 9 "S")).1).fresh ≤ (1 : Nat) ∧
      ({ allocId := 0, args := [] } : Obj) ≠ ({ allocId := 1, args := [] } : Obj) ∧
      mapFind ((getAux envW 2 stW2 (.token 9 "S")).1).instances
        (getCanonicalIdentifier stW2 (.token 9 "S")) = none ∧
      mapFind ((getAux envW 2 ((getAux envW 2 stW2 (.token 9 "S")).1) (.token 9 "S")).1).instances
        (getCanonicalIdentifier stW2 (.token 9 "S")) = none) := by
  refine ⟨?_, ?_, ?_, ?_⟩
  · exact (claim_c1_amended envW stW1 (.token 9 "S")).1 2 0 _ { allocId := 0, args := [] }
      (.factory true) (by decide) (by decide) (by decide)
  · exact (claim_c1_amended envW stEmpty (.str "A")).2.1 (.str "A") true
  · exact (claim_c1_amended envW stEmpty (.str "B")).2.2.2.1 (.str "B")
      { allocId := 7, args := [] }
  · exact (claim_c1_amended envW stW2 (.token 9 "S")).2.2.2.2 2 2 _ _
      { allocId := 0, args := [] } { allocId := 1, args := [] } (.factory false)
      (by decide) (by decide) (by decide) (by decide) (by decide) (by decide) (by decide)

/-- Whether the auto-registration fallback can fire for an identifier: only
class constructors carrying injectable metadata qualify. -/
def fallbackViable (env : Env) : Ident → Bool
  | .ctorId cid _ => (env cid).injectable.isSome
  | _ => false

theorem handleAutoWith_unviable (env : Env)
    (g : ContainerState → Ident → ContainerState × Except Err Obj)
    (st : ContainerState) (identifier : Ident)
    (hv : fallbackViable env identifier = false) :
    handleAutoWith env g st identifier = (st, .ok none) := by
  match identifier with
  | .str s => simp [handleAutoWith]
  | .token tid n => simp [handleAutoWith]
  | .ctorId cid n =>
    have hm : (env cid).injectable = none := by
      simpa [fallbackViable, Option.isSome_iff_exists] using hv
    simp [handleAutoWith, hm]

/-- An uncached identifier with no descriptor and no viable fallback makes
get throw the not-registered error, naming the identifier, with the state
unchanged. -/
theorem getAux_notRegistered (env : Env) (fuel : Nat) (st : ContainerState) (identifier : Ident)
    (hcache : mapFind st.instances (getCanonicalIdentifier st identifier) = none)
    (hsvc : mapFind st.services (getCanonicalIdentifier st identifier) = none)
    (hv : fallbackViable env identifier = false) :
    getAux env (fuel + 1) st identifier = (st, .error (notRegisteredErr identifier)) := by
  simp only [getAux, hcache, hsvc,
    handleAutoWith_unviable env (fun s i => getAux env fuel s i) st identifier hv]

theorem resolveDepsWith_append_ok (g : ContainerState → Ident → ContainerState × Except Err Obj)
    (La : List (Option Ident)) :
    ∀ st st₁ a₁ R, resolveDepsWith g st La = (st₁, .ok a₁) →
      resolveDepsWith g st (La ++ R)
        = (match resolveDepsWith g st₁ R with
           | (st₂, .error e) => (st₂, .error e)
           | (st₂, .ok a₂) => (st₂, .ok (a₁ ++ a₂))) := by
  induction La with
  | nil =>
    intro st st₁ a₁ R h
    simp only [resolveDepsWith] at h
    obtain ⟨h1, h2⟩ := Prod.mk.injEq .. ▸ h
    have h2' : a₁ = [] := by
      cases h2a : a₁ with
      | nil => rfl
      | cons x xs => rw [h2a] at h2; simp at h2
    subst h2'
    rw [← h1]
    simp only [List.nil_append]
    split <;> simp_all
  | cons hd rest ih =>
    intro st st₁ a₁ R h
    match hd with
    | none =>
      rcases hrec : resolveDepsWith g st rest with ⟨stA, rA⟩
      simp only [resolveDepsWith, hrec] at h
      rcases rA with e | args
      · simp at h
      · simp only [Prod.mk.injEq, Except.ok.injEq] at h
        obtain ⟨h1, h2⟩ := h
        subst h1; subst h2
        simp only [List.cons_append, resolveDepsWith, List.append_eq]
        rw [ih st stA args R hrec]
        rcases hR : resolveDepsWith g stA R with ⟨stB, rB⟩
        rcases rB with e | args₂ <;> simp
    | some dep =>
      rcases hg : g st dep with ⟨stA, rA⟩
      rcases rA with e | v
      · simp only [resolveDepsWith, hg] at h
        simp at h
      · rcases hrec : resolveDepsWith g stA rest with ⟨stB, rB⟩
        simp only [resolveDepsWith, hg, hrec] at h
        rcases rB with e | args
        · simp at h
        · simp only [Prod.mk.injEq, Except.ok.injEq] at h
          obtain ⟨h1, h2⟩ := h
          subst h1; subst h2
          simp only [List.cons_append, resolveDepsWith, hg, List.append_eq]
          rw [ih stA stB args R hrec]
          rcases hR : resolveDepsWith g stB R with ⟨stC, rC⟩
          rcases rC with e | args₂ <;> simp

/-- C5: get on an identifier with no descriptor, no cached instance and no
viable auto-registration throws the not-registered error naming the
identifier; and resolving a constructor descriptor one of whose declared
dependencies is itself unresolvable propagates that dependency
not-registered error to the caller, the dependent service never being
constructed. -/
theorem claim_c5 :
    (∀ env fuel st identifier,
        mapFind st.instances (getCanonicalIdentifier st identifier) = none →
        mapFind st.services (getCanonicalIdentifier st identifier) = none →
        fallbackViable env identifier = false →
        getAux env (fuel + 1) st identifier = (st, .error (notRegisteredErr identifier))) ∧
    (∀ env fuel st X cid sing La Lb d st₁ a₁,
        mapFind st.instances (getCanonicalIdentifier st X) = none →
        mapFind st.services (getCanonicalIdentifier st X)
          = some (.ctorD cid sing (La ++ some d :: Lb)) →
        resolveDepsWith (fun s j => getAux env (fuel + 1) s j) st La = (st₁, .ok a₁) →
        mapFind st₁.instances (getCanonicalIdentifier st₁ d) = none →
        mapFind st₁.services (getCanonicalIdentifier st₁ d) = none →
        fallbackViable env d = false →
        getAux env (fuel + 2) st X = (st₁, .error (notRegisteredErr d))) := by
  constructor
  · intro env fuel st identifier hcache hsvc hv
    exact getAux_notRegistered env fuel st identifier hcache hsvc hv
  · intro env fuel st X cid sing La Lb d st₁ a₁ hcache hdesc hpre hdc hds hdv
    have hdep : getAux env (fuel + 1) st₁ d = (st₁, .error (notRegisteredErr d)) :=
      getAux_notRegistered env fuel st₁ d hdc hds hdv
    have hdeps : resolveDepsWith (fun s j => getAux env (fuel + 1) s j) st (La ++ some d :: Lb)
        = (st₁, .error (notRegisteredErr d)) := by
      rw [resolveDepsWith_append_ok (fun s j => getAux env (fuel + 1) s j) La st st₁ a₁
        (some d :: Lb) hpre]
      simp only [resolveDepsWith, hdep]
    have hstep : getAux env (fuel + 2) st X
        = (match resolveServiceWith (fun s j => getAux env (fuel + 1) s j) st
             (.ctorD cid sing (La ++ some d :: Lb)) with
           | (st', .error e) => (st', .error e)
           | (st', .ok inst) =>
             if (Descriptor.ctorD cid sing (La ++ some d :: Lb)).isSingleton then
               ({ st' with instances := mapSet st'.instances (getCanonicalIdentifier st X) inst },
                 .ok inst)
             else (st', .ok inst)) := by
      conv_lhs => rw [getAux]
      simp only [hcache, hdesc]
    rw [hstep]
    simp only [resolveServiceWith, hdeps]

/-- Registration for the C5 witness: class 2 registered with a declared
dependency on the never-registered string Missing. -/
def stC5 : ContainerState :=
  registerConstructor envW stEmpty (.ctorId 2 "C") 2 true [some (.str "Missing")]

/-- C5 witness: get on the unregistered string Nope throws the
not-registered error naming it, and resolving class 2 propagates the
not-registered error of its dependency Missing. -/
theorem claim_c5_witness :
    getAux envW 1 stEmpty (.str "Nope") = (stEmpty, .error (notRegisteredErr (.str "Nope"))) ∧
    getAux envW 2 stC5 (.ctorId 2 "C") = (stC5, .error (notRegisteredErr (.str "Missing"))) := by
  constructor
  · exact claim_c5.1 envW 0 stEmpty (.str "Nope") (by decide) (by decide) (by decide)
  · exact claim_c5.2 envW 0 stC5 (.ctorId 2 "C") 2 true [] [] (.str "Missing") stC5 []
      (by decide) (by decide) (by decide) (by decide) (by decide) (by decide)

/-- Container of the C6 counterexample: the string A is first registered by
factory (mapping A to a fresh token), then registerConstructor is called
for the same string with class 0. -/
def stC6 : ContainerState :=
  registerConstructor envW (registerFactory stEmpty (.str "A") true) (.str "A") 0 true []

/-- C6, counterexample: after registerConstructor with string A and class 0
(named C), the string is still mapped to the token created by the earlier
factory registration, not to the class; get of the string succeeds while
get of the class itself throws not-registered, so the two surface forms do
not resolve the same registration. -/
theorem claim_c6_counterexample :
    mapFind stC6.stringToIdentifierMap "A" = some (.token 0 "A") ∧
    mapFind stC6.stringToIdentifierMap "A" ≠ some (.ctorId 0 "C") ∧
    (getAux envW 2 stC6 (.str "A")).2 = .ok { allocId := 1, args := [] } ∧
    (getAux envW 2 stC6 (.ctorId 0 "C")).2 = .error (notRegisteredErr (.ctorId 0 "C")) := by
  decide

/-- C6, amended: when the string name has no previous mapping,
registerConstructor maps it to the class, both surface forms canonicalize
to the class so they resolve the same registration, and for a singleton a
successful get through the string followed by a get through the class
returns the identical instance; a string never seen at any registration
canonicalizes to itself. -/
theorem claim_c6_amended (env : Env) (st : ContainerState) (name : String) (cid : Nat)
    (deps : List (Option Ident))
    (hun : mapFind st.stringToIdentifierMap name = none) :
    mapFind (registerConstructor env st (.str name) cid true deps).stringToIdentifierMap name
        = some (ctorIdent env cid) ∧
    getCanonicalIdentifier (registerConstructor env st (.str name) cid true deps) (.str name)
        = ctorIdent env cid ∧
    getCanonicalIdentifier (registerConstructor env st (.str name) cid true deps)
        (ctorIdent env cid) = ctorIdent env cid ∧
    (∀ fuel f₂ st₁ v,
        getAux env fuel (registerConstructor env st (.str name) cid true deps) (.str name)
          = (st₁, .ok v) →
        getAux env (f₂ + 1) st₁ (ctorIdent env cid) = (st₁, .ok v)) ∧
    (∀ st₀ s, mapFind st₀.stringToIdentifierMap s = none →
        getCanonicalIdentifier st₀ (.str s) = .str s) := by
  have hmap :
      mapFind (registerConstructor env st (.str name) cid true deps).stringToIdentifierMap name
        = some (ctorIdent env cid) := by
    simp only [registerConstructor, addIdentifierMapping, hun, Option.isSome_none,
      Bool.false_eq_true, if_false]
    exact mapFind_mapSet_self _ _ _
  have hcanonStr :
      getCanonicalIdentifier (registerConstructor env st (.str name) cid true deps) (.str name)
        = ctorIdent env cid := by
    simp [getCanonicalIdentifier, hmap]
  have hcanonCtor :
      getCanonicalIdentifier (registerConstructor env st (.str name) cid true deps)
        (ctorIdent env cid) = ctorIdent env cid := rfl
  refine ⟨hmap, hcanonStr, hcanonCtor, ?_, ?_⟩
  · intro fuel f₂ st₁ v hget
    have hdesc : mapFind (registerConstructor env st (.str name) cid true deps).services
        (getCanonicalIdentifier (registerConstructor env st (.str name) cid true deps)
          (.str name)) = some (.ctorD cid true deps) := by
      rw [hcanonStr]
      simp only [registerConstructor, addIdentifierMapping, hun, Option.isSome_none,
        Bool.false_eq_true, if_false]
      have hmid : getCanonicalIdentifier { st with stringToIdentifierMap := mapSet st.stringToIdentifierMap name (ctorIdent env cid) } (.str name) = ctorIdent env cid := by
        simp [getCanonicalIdentifier, mapFind_mapSet_self]
      rw [hmid]
      exact mapFind_mapSet_self _ _ _
    exact singleton_get_again env fuel f₂ _ st₁ (.str name) (ctorIdent env cid) v
      (.ctorD cid true deps) hdesc rfl hget (by rw [hcanonStr, hcanonCtor])
  · intro st₀ s h
    simp [getCanonicalIdentifier, h]

/-- Registration for the C6 witness: the fresh string N registered with
class 3. -/
def stC6w : ContainerState := registerConstructor envW stEmpty (.str "N") 3 true []

/-- C6 witness: the amended theorem applied to the fresh string N and class
3: the mapping, the shared canonical identifier, the identical singleton
instance through both surface forms, and self canonicalization of the
never-seen string Z. -/
theorem claim_c6_amended_witness :
    mapFind stC6w.stringToIdentifierMap "N" = some (ctorIdent envW 3) ∧
    getCanonicalIdentifier stC6w (.str "N") = ctorIdent envW 3 ∧
    getCanonicalIdentifier stC6w (ctorIdent envW 3) = ctorIdent envW 3 ∧
    getAux envW 1 ((getAux envW 1 stC6w (.str "N")).1) (ctorIdent envW 3)
        = ((getAux envW 1 stC6w (.str "N")).1, .ok { allocId := 0, args := [] }) ∧
    getCanonicalIdentifier stEmpty (.str "Z") = .str "Z" := by
  have h := claim_c6_amended envW stEmpty "N" 3 [] (by decide)
  exact ⟨h.1, h.2.1, h.2.2.1,
    h.2.2.2.1 1 0 ((getAux envW 1 stC6w (.str "N")).1) { allocId := 0, args := [] } (by decide),
    h.2.2.2.2 stEmpty "Z" (by decide)⟩

theorem registerServiceClass_mem (reg : Registry) (cls : Nat) :
    cls ∈ (Registry.registerServiceClass reg cls).serviceClasses := by
  by_cases h : cls ∈ reg.serviceClasses <;> simp [Registry.registerServiceClass, h]

theorem registerServiceClass_cmdMap (reg : Registry) (cls : Nat) :
    (Registry.registerServiceClass reg cls).commandHandlersMap = reg.commandHandlersMap := by
  by_cases h : cls ∈ reg.serviceClasses <;> simp [Registry.registerServiceClass, h]

theorem registerServiceClass_qryMap (reg : Registry) (cls : Nat) :
    (Registry.registerServiceClass reg cls).queryHandlersMap = reg.queryHandlersMap := by
  by_cases h : cls ∈ reg.serviceClasses <;> simp [Registry.registerServiceClass, h]

theorem registerServiceClass_evtMap (reg : Registry) (cls : Nat) :
    (Registry.registerServiceClass reg cls).eventHandlersMap = reg.eventHandlersMap := by
  by_cases h : cls ∈ reg.serviceClasses <;> simp [Registry.registerServiceClass, h]

/-- C3: registering a command (resp. query) handler succeeds when the
target type name is unbound, binding it and recording the handler class as
a service class; a second registration for the same name throws the error
naming that target type; event handler registration always succeeds and
appends to the ordered per-name handler list with no uniqueness check. -/
theorem claim_c3 (reg : Registry) (cls : Nat) (name : String) :
    (mapFind reg.commandHandlersMap name = none →
      ∃ reg', Registry.register reg cls name .command = .ok reg' ∧
        mapFind reg'.commandHandlersMap name = some cls ∧ cls ∈ reg'.serviceClasses) ∧
    (∀ c, mapFind reg.commandHandlersMap name = some c →
      Registry.register reg cls name .command
        = .error (.msg ("Command handler for \x27" ++ name ++ "\x27 already registered."))) ∧
    (mapFind reg.queryHandlersMap name = none →
      ∃ reg', Registry.register reg cls name .query = .ok reg' ∧
        mapFind reg'.queryHandlersMap name = some cls ∧ cls ∈ reg'.serviceClasses) ∧
    (∀ c, mapFind reg.queryHandlersMap name = some c →
      Registry.register reg cls name .query
        = .error (.msg ("Query handler for \x27" ++ name ++ "\x27 already registered."))) ∧
    (∃ reg', Registry.register reg cls name .event = .ok reg' ∧
      mapFind reg'.eventHandlersMap name
        = some (((mapFind reg.eventHandlersMap name).getD []) ++ [cls]) ∧
      cls ∈ reg'.serviceClasses) := by
  refine ⟨?_, ?_, ?_, ?_, ?_⟩
  · intro h
    refine ⟨Registry.registerServiceClass
        { reg with commandHandlersMap := mapSet reg.commandHandlersMap name cls } cls,
      by simp [Registry.register, h], ?_, registerServiceClass_mem _ _⟩
    rw [registerServiceClass_cmdMap]
    exact mapFind_mapSet_self _ _ _
  · intro c h
    simp [Registry.register, h]
  · intro h
    refine ⟨Registry.registerServiceClass
        { reg with queryHandlersMap := mapSet reg.queryHandlersMap name cls } cls,
      by simp [Registry.register, h], ?_, registerServiceClass_mem _ _⟩
    rw [registerServiceClass_qryMap]
    exact mapFind_mapSet_self _ _ _
  · intro c h
    simp [Registry.register, h]
  · refine ⟨Registry.registerServiceClass { reg with eventHandlersMap := mapSet reg.eventHandlersMap name (((mapFind reg.eventHandlersMap name).getD []) ++ [cls]) } cls,
      by simp [Registry.register], ?_, registerServiceClass_mem _ _⟩
    rw [registerServiceClass_evtMap]
    exact mapFind_mapSet_self _ _ _

/-- C3 witness: on the empty registry, registering a command handler for
CreateNote succeeds; a second command registration for the same name throws
the error naming CreateNote; event registration appends twice to an
ordered list. -/
theorem claim_c3_witness :
    (∃ reg', Registry.register Registry.clear 7 "CreateNote" .command = .ok reg' ∧
      mapFind reg'.commandHandlersMap "CreateNote" = some 7 ∧ 7 ∈ reg'.serviceClasses) ∧
    (∀ reg', Registry.register Registry.clear 7 "CreateNote" .command = .ok reg' →
      Registry.register reg' 8 "CreateNote" .command
        = .error (.msg "Command handler for \x27CreateNote\x27 already registered.")) ∧
    (∃ reg', Registry.register Registry.clear 9 "NoteCreated" .event = .ok reg' ∧
      mapFind reg'.eventHandlersMap "NoteCreated" = some [9] ∧ 9 ∈ reg'.serviceClasses) := by
  refine ⟨(claim_c3 Registry.clear 7 "CreateNote").1 (by decide), ?_, ?_⟩
  · intro reg' h
    have h2 : reg' = Registry.registerServiceClass
        { Registry.clear with commandHandlersMap := mapSet Registry.clear.commandHandlersMap "CreateNote" 7 } 7 := by
      simpa [Registry.register, mapFind] using h.symm
    subst h2
    exact (claim_c3 _ 8 "CreateNote").2.1 7 (by decide)
  · have h := (claim_c3 Registry.clear 9 "NoteCreated").2.2.2.2
    simpa [mapFind] using h

/-- C4, counterexample: dispatching TestCommand with no registered handler
rejects with the message ending in a period, so the message is not exactly
the period-free string the claim demands. -/
theorem claim_c4_counterexample :
    (CommandDispatcher.dispatch ⟨[]⟩ envW (fun o _ => .ok o) 1 stEmpty "TestCommand").2
        = .error (.msg "No handler registered for command \x27TestCommand\x27.") ∧
    (CommandDispatcher.dispatch ⟨[]⟩ envW (fun o _ => .ok o) 1 stEmpty "TestCommand").2
        ≠ .error (.msg "No handler registered for command \x27TestCommand\x27") := by
  constructor
  · rfl
  · decide

/-- C4, amended: dispatching a command (resp. query) whose type name has no
registered handler rejects with exactly the message No handler registered
for command (resp. query) quoting the name, followed by a period, leaving
the container unchanged. -/
theorem claim_c4_amended :
    (∀ env handle fuel st (cd : CommandDispatcher) name, mapFind cd.handlers name = none →
      cd.dispatch env handle fuel st name
        = (st, .error (.msg ("No handler registered for command \x27" ++ name ++ "\x27.")))) ∧
    (∀ env handle fuel st (qd : QueryDispatcher) name, mapFind qd.handlers name = none →
      qd.dispatch env handle fuel st name
        = (st, .error (.msg ("No handler registered for query \x27" ++ name ++ "\x27.")))) := by
  constructor
  · intro env handle fuel st cd name h
    simp [CommandDispatcher.dispatch, h]
  · intro env handle fuel st qd name h
    simp [QueryDispatcher.dispatch, h]

/-- C4 witness: the amended theorem at the empty dispatchers and the names
TestCommand and TestQuery. -/
theorem claim_c4_amended_witness :
    CommandDispatcher.dispatch ⟨[]⟩ envW (fun o _ => .ok o) 1 stEmpty "TestCommand"
        = (stEmpty, .error (.msg "No handler registered for command \x27TestCommand\x27.")) ∧
    QueryDispatcher.dispatch ⟨[]⟩ envW (fun o _ => .ok o) 1 stEmpty "TestQuery"
        = (stEmpty, .error (.msg "No handler registered for query \x27TestQuery\x27.")) := by
  constructor
  · exact claim_c4_amended.1 envW (fun o _ => .ok o) 1 stEmpty ⟨[]⟩ "TestCommand" (by decide)
  · exact claim_c4_amended.2 envW (fun o _ => .ok o) 1 stEmpty ⟨[]⟩ "TestQuery" (by decide)

/-- C7: each of get, executeCommand, executeQuery, dispatchEvents and
getContainer on a not yet initialized orchestrator fails with exactly the
not-initialized message, and a second initialize on the same orchestrator
throws exactly the already-initialized message. -/
theorem claim_c7 (env : Env) (handle : Obj → String → Except Err Obj)
    (run : DEvent → Ident → Except Err Unit) (fuel : Nat) (t u u' : Tmick)
    (identifier : Ident) (cn qn : String) (events : List DEvent)
    (ht : t.inited = false) (hu : Tmick.init u = .ok u') :
    (t.get env fuel identifier).2 = .error (.msg notInitializedMsg) ∧
    (t.executeCommand env handle fuel cn).2 = .error (.msg notInitializedMsg) ∧
    (t.executeQuery env handle fuel qn).2 = .error (.msg notInitializedMsg) ∧
    (t.dispatchEvents run events).2 = .error (.msg notInitializedMsg) ∧
    t.getContainer = .error (.msg notInitializedMsg) ∧
    Tmick.init u' = .error (.msg alreadyInitializedMsg) := by
  have hui : u.inited = false := by
    by_cases h : u.inited
    · simp [Tmick.init, h] at hu
    · exact Bool.not_eq_true u.inited ▸ (by simpa using h)
  have hu' : u' = { u with inited := true } := by
    simp [Tmick.init, hui] at hu
    exact hu.symm
  refine ⟨?_, ?_, ?_, ?_, ?_, ?_⟩
  · simp [Tmick.get, ht]
  · simp [Tmick.executeCommand, ht]
  · simp [Tmick.executeQuery, ht]
  · simp [Tmick.dispatchEvents, ht]
  · simp [Tmick.getContainer, ht]
  · subst hu'
    simp [Tmick.init]

/-- C7 witness: the theorem at a freshly constructed orchestrator. -/
theorem claim_c7_witness :
    ((Tmick.new).get envW 1 (.str "Svc")).2 = .error (.msg notInitializedMsg) ∧
    ((Tmick.new).executeCommand envW (fun o _ => .ok o) 1 "Cmd").2
        = .error (.msg notInitializedMsg) ∧
    ((Tmick.new).executeQuery envW (fun o _ => .ok o) 1 "Qry").2
        = .error (.msg notInitializedMsg) ∧
    ((Tmick.new).dispatchEvents (fun _ _ => .ok ()) []).2 = .error (.msg notInitializedMsg) ∧
    (Tmick.new).getContainer = .error (.msg notInitializedMsg) ∧
    Tmick.init { Tmick.new with inited := true } = .error (.msg alreadyInitializedMsg) :=
  claim_c7 envW (fun o _ => .ok o) (fun _ _ => .ok ()) 1 Tmick.new Tmick.new
    { Tmick.new with inited := true } (.str "Svc") "Cmd" "Qry" [] (by decide) (by decide)

/-- C9: initialize examines only the initialized flag, so it succeeds on
every orchestrator whose flag is false even when autoScanAndRegisters was
never called; on a fresh orchestrator the dispatcher fields are null; and
with the flag set but the dispatcher fields still null, the execute methods
pass the initialization check and fail instead with the TypeError of the
null dispatch access. -/
theorem claim_c9 (env : Env) (handle : Obj → String → Except Err Obj)
    (run : DEvent → Ident → Except Err Unit) (fuel : Nat) (cn qn : String)
    (events : List DEvent) :
    (∀ t : Tmick, t.inited = false → Tmick.init t = .ok { t with inited := true }) ∧
    Tmick.new.commandDispatcher = none ∧ Tmick.new.queryDispatcher = none ∧
    Tmick.new.eventDispatcher = none ∧ Tmick.new.inited = false ∧
    (∀ t : Tmick, t.inited = true → t.commandDispatcher = none →
      (t.executeCommand env handle fuel cn).2 = .error (.typeError "dispatch") ∧
      (t.executeCommand env handle fuel cn).2 ≠ .error (.msg notInitializedMsg)) ∧
    (∀ t : Tmick, t.inited = true → t.queryDispatcher = none →
      (t.executeQuery env handle fuel qn).2 = .error (.typeError "dispatch") ∧
      (t.executeQuery env handle fuel qn).2 ≠ .error (.msg notInitializedMsg)) ∧
    (∀ t : Tmick, t.inited = true → t.eventDispatcher = none →
      (t.dispatchEvents run events).2 = .error (.typeError "dispatch") ∧
      (t.dispatchEvents run events).2 ≠ .error (.msg notInitializedMsg)) := by
  refine ⟨?_, rfl, rfl, rfl, rfl, ?_, ?_, ?_⟩
  · intro t h
    simp [Tmick.init, h]
  · intro t h hd
    simp [Tmick.executeCommand, h, hd]
  · intro t h hd
    simp [Tmick.executeQuery, h, hd]
  · intro t h hd
    simp [Tmick.dispatchEvents, h, hd]

/-- C9 witness: a fresh orchestrator initializes without any scan, and the
flagged but unscanned orchestrator passes the init check yet fails on the
null dispatcher. -/
theorem claim_c9_witness :
    Tmick.init Tmick.new = .ok { Tmick.new with inited := true } ∧
    (({ Tmick.new with inited := true } : Tmick).executeCommand envW (fun o _ => .ok o) 1
      "Cmd").2 = .error (.typeError "dispatch") ∧
    (({ Tmick.new with inited := true } : Tmick).executeCommand envW (fun o _ => .ok o) 1
      "Cmd").2 ≠ .error (.msg notInitializedMsg) := by
  have h := claim_c9 envW (fun o _ => .ok o) (fun _ _ => .ok ()) 1 "Cmd" "Qry" []
  exact ⟨h.1 Tmick.new (by decide),
    (h.2.2.2.2.2.1 { Tmick.new with inited := true } (by decide) (by decide)).1,
    (h.2.2.2.2.2.1 { Tmick.new with inited := true } (by decide) (by decide)).2⟩

theorem mem_mapSet_self {K V : Type} [DecidableEq K] (m : List (K × V)) (k : K) (v : V) :
    (k, v) ∈ mapSet m k v := by
  induction m with
  | nil => simp [mapSet]
  | cons p rest ih =>
    by_cases h : p.1 = k <;> simp [mapSet, h, ih]

/-- The registry of the C8 counterexample: one command handler registration
made through the process-wide HandlerRegistry. -/
def regC8 : Registry :=
  match Registry.register Registry.clear 7 "CreateNote" .command with
  | .ok r => r
  | .error _ => Registry.clear

/-- C8, counterexample: two distinct freshly constructed orchestrators and
the shared static registry holding one command registration; the second
orchestrator observes the registration in its debug info, and after
dispose() through the first orchestrator the second one observes the
registration gone, so registry state is shared across orchestrators. -/
theorem claim_c8_counterexample :
    (Tmick.getDebugInfo Tmick.new regC8).handlerRegistrationList
        = [(7, "CreateNote", .command)] ∧
    (Tmick.getDebugInfo Tmick.new ((Tmick.dispose Tmick.new regC8).2)).handlerRegistrationList
        = [] ∧
    (Tmick.getDebugInfo Tmick.new ((Tmick.dispose Tmick.new regC8).2)).handlerRegistrationList
        ≠ (Tmick.getDebugInfo Tmick.new regC8).handlerRegistrationList := by
  refine ⟨rfl, rfl, by decide⟩

/-- C8, amended: the container is per-orchestrator state (dispose through
one orchestrator clears only that orchestrator container and leaves what
any other orchestrator reports about its own container unchanged), but the
handler registry is process-wide static state: every orchestrator observes
the same registration list, a registration made through the registry is
observable through every orchestrator, and dispose through any orchestrator
clears the registry for all of them. -/
theorem claim_c8_amended (t1 t2 : Tmick) (reg : Registry) :
    (Tmick.getDebugInfo t1 reg).handlerRegistrationList
        = (Tmick.getDebugInfo t2 reg).handlerRegistrationList ∧
    (Tmick.dispose t1 reg).2 = Registry.clear ∧
    (Tmick.getDebugInfo t2 ((Tmick.dispose t1 reg).2)).handlerRegistrationList = [] ∧
    (Tmick.getDebugInfo t2 ((Tmick.dispose t1 reg).2)).registeredServices
        = (Tmick.getDebugInfo t2 reg).registeredServices ∧
    (Tmick.dispose t1 reg).1.container = containerClear t1.container ∧
    (∀ cls n reg', Registry.register reg cls n .command = .ok reg' →
      (cls, n, HandlerKind.command) ∈ (Tmick.getDebugInfo t2 reg').handlerRegistrationList) := by
  refine ⟨rfl, rfl, ?_, rfl, rfl, ?_⟩
  · simp [Tmick.getDebugInfo, Tmick.dispose, Registry.clear, Registry.getRegistrations]
  · intro cls n reg' h
    by_cases hdup : (mapFind reg.commandHandlersMap n).isSome
    · simp [Registry.register, hdup] at h
    · simp only [Registry.register, hdup, Bool.false_eq_true, if_false, Except.ok.injEq] at h
      subst h
      simp only [Tmick.getDebugInfo, Registry.getRegistrations]
      apply List.mem_append_left
      apply List.mem_append_left
      rw [registerServiceClass_cmdMap]
      exact List.mem_map.mpr ⟨(n, cls), mem_mapSet_self _ _ _, rfl⟩

/-- C8 witness: the amended theorem at two fresh orchestrators and the
registry holding the CreateNote command registration. -/
theorem claim_c8_amended_witness :
    (Tmick.getDebugInfo Tmick.new regC8).handlerRegistrationList
        = (Tmick.getDebugInfo Tmick.new regC8).handlerRegistrationList ∧
    (Tmick.dispose Tmick.new regC8).2 = Registry.clear ∧
    (Tmick.getDebugInfo Tmick.new ((Tmick.dispose Tmick.new regC8).2)).handlerRegistrationList
        = [] ∧
    (Tmick.getDebugInfo Tmick.new ((Tmick.dispose Tmick.new regC8).2)).registeredServices
        = (Tmick.getDebugInfo Tmick.new regC8).registeredServices ∧
    (Tmick.dispose Tmick.new regC8).1.container = containerClear (Tmick.new).container ∧
    (7, "CreateNote", HandlerKind.command)
        ∈ (Tmick.getDebugInfo Tmick.new regC8).handlerRegistrationList := by
  have h := claim_c8_amended Tmick.new Tmick.new regC8
  have h0 := claim_c8_amended Tmick.new Tmick.new Registry.clear
  exact ⟨h.1, h.2.1, h.2.2.1, h.2.2.2.1, h.2.2.2.2.1,
    h0.2.2.2.2.2 7 "CreateNote" regC8 (by decide)⟩

/-- C10: applying the Inject decorator only at parameter index 1 leaves a
hole at index 0; dependency resolution skips a hole without invoking get
and without touching the state, contributing the undefined argument; and
resolving a class whose canonical dependency list is hole-then-dependency
succeeds without any error for the gap, invoking the constructor with
undefined at index 0 and the resolved dependency at index 1. -/
theorem claim_c10 :
    (∀ identifier, injectAtIndex [] 1 identifier = [none, some identifier]) ∧
    (∀ (g : ContainerState → Ident → ContainerState × Except Err Obj) st rest st' args,
      resolveDepsWith g st rest = (st', .ok args) →
      resolveDepsWith g st (none :: rest) = (st', .ok (none :: args))) ∧
    (∀ env fuel st X cid sing d st₁ v,
      mapFind st.instances (getCanonicalIdentifier st X) = none →
      mapFind st.services (getCanonicalIdentifier st X)
        = some (.ctorD cid sing [none, some d]) →
      getAux env fuel st d = (st₁, .ok v) →
      (getAux env (fuel + 1) st X).2
        = .ok { allocId := st₁.fresh, args := [none, some v.allocId] }) := by
  refine ⟨?_, ?_, ?_⟩
  · intro identifier
    simp [injectAtIndex, List.replicate]
  · intro g st rest st' args h
    simp [resolveDepsWith, h]
  · intro env fuel st X cid sing d st₁ v hcache hdesc hdep
    have hdeps : resolveDepsWith (fun s j => getAux env fuel s j) st [none, some d]
        = (st₁, .ok [none, some v.allocId]) := by
      simp [resolveDepsWith, hdep]
    conv_lhs => rw [getAux]
    simp only [hcache, hdesc, resolveServiceWith, hdeps]
    split <;> rfl

/-- Registration for the C10 witness: class 4 registered with the sparse
dependency list hole-then-token, the token bound to a pre-existing
instance. -/
def stC10 : ContainerState :=
  registerInstance (registerConstructor envW stEmpty (.ctorId 4 "C") 4 true
    [none, some (.token 8 "DEP")]) (.token 8 "DEP") { allocId := 42, args := [] }

/-- C10 witness: the Inject sparse write, the hole-skipping equation at a
concrete resolver, and resolving class 4 constructs it with undefined at
index 0 and the token instance at index 1. -/
theorem claim_c10_witness :
    injectAtIndex [] 1 (.token 8 "DEP") = [none, some (.token 8 "DEP")] ∧
    resolveDepsWith (fun s _ => (s, .ok { allocId := 0, args := [] })) stEmpty [none]
        = (stEmpty, .ok [none]) ∧
    (getAux envW 2 stC10 (.ctorId 4 "C")).2
        = .ok { allocId := 0, args := [none, some 42] } := by
  refine ⟨claim_c10.1 (.token 8 "DEP"), ?_, ?_⟩
  · exact claim_c10.2.1 (fun s _ => (s, .ok { allocId := 0, args := [] })) stEmpty [] stEmpty []
      (by decide)
  · have h := claim_c10.2.2 envW 1 stC10 (.ctorId 4 "C") 4 true (.token 8 "DEP") stC10
      { allocId := 42, args := [] } (by decide) (by decide) (by decide)
    simpa using h

/-- Entries of the trace block of one event all carry that event position. -/
theorem block_stamp (i n : Nat) (e : TEntry)
    (h : e ∈ ((List.range n).map (TEntry.start i)) ++ ((List.range n).map (TEntry.finish i))) :
    e.batchOf = i := by
  rcases List.mem_append.mp h with h' | h' <;>
    · obtain ⟨j, _, rfl⟩ := List.mem_map.mp h'
      rfl

theorem firstErr_map_all_ok (f : Ident → Except Err Unit) :
    ∀ hs : List Ident, (∀ h ∈ hs, f h = .ok ()) → firstErr (hs.map f) = none := by
  intro hs
  induction hs with
  | nil => intro _; rfl
  | cons hd tl ih =>
    intro hall
    have hh := hall hd (by simp)
    simp only [List.map_cons, hh, firstErr]
    exact ih (fun h hm => hall h (by simp [hm]))

theorem firstErr_single_err (f : Ident → Except Err Unit) :
    ∀ (hs : List Ident) (j : Nat) (h : Ident) (err : Err),
      hs[j]? = some h → f h = .error err →
      (∀ j' h', hs[j']? = some h' → j' ≠ j → f h' = .ok ()) →
      firstErr (hs.map f) = some err := by
  intro hs
  induction hs with
  | nil => intro j h err hj; simp at hj
  | cons hd tl ih =>
    intro j h err hj hherr hothers
    match j with
    | 0 =>
      simp only [List.getElem?_cons_zero, Option.some.injEq] at hj
      subst hj
      simp [firstErr, hherr]
    | j' + 1 =>
      have hhd : f hd = .ok () := hothers 0 hd (by simp) (by omega)
      simp only [List.getElem?_cons_succ] at hj
      simp only [List.map_cons, hhd, firstErr]
      exact ih j' h err hj hherr
        (fun j'' h'' hj'' hne => hothers (j'' + 1) h'' (by simpa using hj'') (by omega))

theorem dispatchFrom_stamp (run : DEvent → Ident → Except Err Unit) (ed : EventDispatcher) :
    ∀ (evs : List DEvent) (i : Nat) (e : TEntry),
      e ∈ (EventDispatcher.dispatchFrom run ed i evs).2 → i ≤ e.batchOf := by
  intro evs
  induction evs with
  | nil => intro i e h; simp [EventDispatcher.dispatchFrom] at h
  | cons ev rest ih =>
    intro i e h
    simp only [EventDispatcher.dispatchFrom] at h
    split at h
    · rename_i err hfe
      have := block_stamp i _ e h
      omega
    · rename_i hfe
      rcases List.mem_append.mp h with h' | h'
      · have := block_stamp i _ e h'
        omega
      · have := ih (i + 1) e h'
        omega

theorem dispatchFrom_separation (run : DEvent → Ident → Except Err Unit)
    (ed : EventDispatcher) :
    ∀ (evs : List DEvent) (idx iRel : Nat) (e : DEvent) (j' : Nat),
      evs[iRel]? = some e →
      TEntry.start (idx + iRel + 1) j' ∈ (EventDispatcher.dispatchFrom run ed idx evs).2 →
      ∃ Ta Tb, (EventDispatcher.dispatchFrom run ed idx evs).2 = Ta ++ Tb ∧
        (∀ j, j < ((mapFind ed.handlers e.ctorName).getD []).length →
          TEntry.finish (idx + iRel) j ∈ Ta) ∧
        (∀ j'', TEntry.start (idx + iRel + 1) j'' ∉ Ta) := by
  intro evs
  induction evs with
  | nil => intro idx iRel e j' hget; simp at hget
  | cons ev rest ih =>
    intro idx iRel e j' hget hmem
    simp only [EventDispatcher.dispatchFrom] at hmem ⊢
    split at hmem
    · rename_i err hfe
      exfalso
      have hst := block_stamp idx _ _ hmem
      simp only [TEntry.batchOf] at hst
      omega
    · rename_i hfe
      simp only [hfe]
      match iRel with
      | 0 =>
        have he : ev = e := by simpa using hget
        subst he
        refine ⟨(List.range ((mapFind ed.handlers ev.ctorName).getD []).length).map
              (TEntry.start idx)
            ++ (List.range ((mapFind ed.handlers ev.ctorName).getD []).length).map
              (TEntry.finish idx),
          (EventDispatcher.dispatchFrom run ed (idx + 1) rest).2, by simp, ?_, ?_⟩
        · intro j hj
          apply List.mem_append_right
          exact List.mem_map.mpr ⟨j, List.mem_range.mpr hj, by simp⟩
        · intro j'' hj''
          have hst := block_stamp idx _ _ hj''
          simp only [TEntry.batchOf] at hst
          omega
      | iRel' + 1 =>
        simp only [List.getElem?_cons_succ] at hget
        have hnotblock : TEntry.start (idx + (iRel' + 1) + 1) j' ∉
            ((List.range ((mapFind ed.handlers ev.ctorName).getD []).length).map (TEntry.start idx)
              ++ (List.range ((mapFind ed.handlers ev.ctorName).getD []).length).map
                (TEntry.finish idx)) := by
          intro hmem'
          have hst := block_stamp idx _ _ hmem'
          have h2 : idx + (iRel' + 1) + 1 = idx := by simpa [TEntry.batchOf] using hst
          omega
        have hmemrest : TEntry.start ((idx + 1) + iRel' + 1) j'
            ∈ (EventDispatcher.dispatchFrom run ed (idx + 1) rest).2 := by
          have harith : idx + (iRel' + 1) + 1 = (idx + 1) + iRel' + 1 := by omega
          rcases List.mem_append.mp hmem with h' | h'
          · exact absurd h' hnotblock
          · rw [← harith]; exact h'
        obtain ⟨Ta', Tb', htr', hfin', hnost'⟩ := ih (idx + 1) iRel' e j' hget hmemrest
        refine ⟨((List.range ((mapFind ed.handlers ev.ctorName).getD []).length).map
            (TEntry.start idx)
            ++ (List.range ((mapFind ed.handlers ev.ctorName).getD []).length).map
              (TEntry.finish idx)) ++ Ta', Tb', ?_, ?_, ?_⟩
        · show _ ++ (EventDispatcher.dispatchFrom run ed (idx + 1) rest).2 = _
          rw [htr', ← List.append_assoc]
        · intro j hj
          apply List.mem_append_right
          have harith : idx + (iRel' + 1) = (idx + 1) + iRel' := by omega
          rw [harith]
          exact hfin' j hj
        · intro j'' hj''
          rcases List.mem_append.mp hj'' with h' | h'
          · have hst := block_stamp idx _ _ h'
            have h2 : idx + (iRel' + 1) + 1 = idx := by simpa [TEntry.batchOf] using hst
            omega
          · have harith : idx + (iRel' + 1) + 1 = (idx + 1) + iRel' + 1 := by omega
            rw [harith] at h'
            exact hnost' j'' h'

theorem dispatchFrom_abort (run : DEvent → Ident → Except Err Unit) (ed : EventDispatcher) :
    ∀ (evs : List DEvent) (idx i : Nat) (e : DEvent) (j : Nat) (h : Ident) (err : Err),
      evs[i]? = some e →
      (∀ i' e' h', i' < i → evs[i']? = some e' →
        h' ∈ (mapFind ed.handlers e'.ctorName).getD [] → run e' h' = .ok ()) →
      ((mapFind ed.handlers e.ctorName).getD [])[j]? = some h →
      run e h = .error err →
      (∀ j' h', ((mapFind ed.handlers e.ctorName).getD [])[j']? = some h' → j' ≠ j →
        run e h' = .ok ()) →
      (EventDispatcher.dispatchFrom run ed idx evs).1 = .error err ∧
      (∀ k j'', idx + i < k →
        TEntry.start k j'' ∉ (EventDispatcher.dispatchFrom run ed idx evs).2) := by
  intro evs
  induction evs with
  | nil => intro idx i e j h err hget; simp at hget
  | cons ev rest ih =>
    intro idx i e j h err hget hpre hj hherr hothers
    match i with
    | 0 =>
      have he : ev = e := by simpa using hget
      subst he
      have hfe : firstErr (((mapFind ed.handlers ev.ctorName).getD []).map
          (fun identifier => run ev identifier)) = some err :=
        firstErr_single_err (fun identifier => run ev identifier) _ j h err hj hherr hothers
      constructor
      · simp only [EventDispatcher.dispatchFrom, hfe]
      · intro k j'' hk hmem
        simp only [EventDispatcher.dispatchFrom, hfe] at hmem
        have hst := block_stamp idx _ _ hmem
        simp only [TEntry.batchOf] at hst
        omega
    | i' + 1 =>
      simp only [List.getElem?_cons_succ] at hget
      have hall : ∀ hh ∈ (mapFind ed.handlers ev.ctorName).getD [], run ev hh = .ok () := by
        intro hh hmm
        exact hpre 0 ev hh (by omega) (by simp) hmm
      have hfe : firstErr (((mapFind ed.handlers ev.ctorName).getD []).map
          (fun identifier => run ev identifier)) = none :=
        firstErr_map_all_ok (fun identifier => run ev identifier) _ hall
      have hpre' : ∀ i'' e'' h'', i'' < i' → rest[i'']? = some e'' →
          h'' ∈ (mapFind ed.handlers e''.ctorName).getD [] → run e'' h'' = .ok () := by
        intro i'' e'' h'' hlt hg hm
        exact hpre (i'' + 1) e'' h'' (by omega) (by simpa using hg) hm
      obtain ⟨hres, hnost⟩ := ih (idx + 1) i' e j h err hget hpre' hj hherr hothers
      constructor
      · simp only [EventDispatcher.dispatchFrom, hfe]
        exact hres
      · intro k j'' hk hmem
        simp only [EventDispatcher.dispatchFrom, hfe] at hmem
        rcases List.mem_append.mp hmem with h' | h'
        · have hst := block_stamp idx _ _ h'
          simp only [TEntry.batchOf] at hst
          omega
        · exact hnost k j'' (by omega) h'

/-- C2: events are dispatched strictly in list order: whenever any handler
of event i+1 has started, the trace splits into a prefix containing every
settled handler of event i and no start of event i+1 (all handlers of event
i complete before any handler of event i+1 begins); and when all handlers
of events before i succeed and exactly one handler of event i throws, that
failure propagates to the caller and no handler of any later event is
invoked. -/
theorem claim_c2 (run : DEvent → Ident → Except Err Unit) (ed : EventDispatcher)
    (events : List DEvent) :
    (∀ (i : Nat) (e : DEvent) (j' : Nat), events[i]? = some e →
      TEntry.start (i + 1) j' ∈ (ed.dispatch run events).2 →
      ∃ Ta Tb, (ed.dispatch run events).2 = Ta ++ Tb ∧
        (∀ j, j < ((mapFind ed.handlers e.ctorName).getD []).length →
          TEntry.finish i j ∈ Ta) ∧
        (∀ j'', TEntry.start (i + 1) j'' ∉ Ta)) ∧
    (∀ (i : Nat) (e : DEvent) (j : Nat) (h : Ident) (err : Err), events[i]? = some e →
      (∀ i' e' h', i' < i → events[i']? = some e' →
        h' ∈ (mapFind ed.handlers e'.ctorName).getD [] → run e' h' = .ok ()) →
      ((mapFind ed.handlers e.ctorName).getD [])[j]? = some h →
      run e h = .error err →
      (∀ j' h', ((mapFind ed.handlers e.ctorName).getD [])[j']? = some h' → j' ≠ j →
        run e h' = .ok ()) →
      (ed.dispatch run events).1 = .error err ∧
      (∀ k j'', i < k → TEntry.start k j'' ∉ (ed.dispatch run events).2)) := by
  constructor
  · intro i e j' hget hmem
    have h := dispatchFrom_separation run ed events 0 i e j' hget (by simpa using hmem)
    simpa using h
  · intro i e j h err hget hpre hj hherr hothers
    have hres := dispatchFrom_abort run ed events 0 i e j h err hget hpre hj hherr hothers
    refine ⟨hres.1, ?_⟩
    intro k j'' hk
    exact hres.2 k j'' (by omega)

/-- All-succeeding handler behavior for the C2 witness. -/
def runOkW : DEvent → Ident → Except Err Unit := fun _ _ => .ok ()

/-- Handler behavior for the C2 witness in which only handler h2 of event A
throws. -/
def runErrW : DEvent → Ident → Except Err Unit := fun e h =>
  if e.ctorName = "A" ∧ h = Ident.str "h2" then .error (.msg "boom") else .ok ()

/-- Event dispatcher of the C2 witness: two handlers for A, one for B. -/
def edW : EventDispatcher :=
  EventDispatcher.registerHandler
    (EventDispatcher.registerHandler
      (EventDispatcher.registerHandler ⟨[]⟩ "A" (.str "h1")) "A" (.str "h2")) "B" (.str "h3")

/-- Event list of the C2 witness. -/
def evW : List DEvent := [⟨"A"⟩, ⟨"B"⟩]

/-- C2 witness: on the two-event list, once a handler of event B has
started the trace splits after all settled handlers of event A; and with
handler h2 of event A throwing, dispatch rejects with that error and no
handler of event B starts. -/
theorem claim_c2_witness :
    (∃ Ta Tb, (edW.dispatch runOkW evW).2 = Ta ++ Tb ∧
      (∀ j, j < ((mapFind edW.handlers (DEvent.mk "A").ctorName).getD []).length →
        TEntry.finish 0 j ∈ Ta) ∧
      (∀ j'', TEntry.start 1 j'' ∉ Ta)) ∧
    (edW.dispatch runErrW evW).1 = .error (.msg "boom") ∧
    (∀ k j'', 0 < k → TEntry.start k j'' ∉ (edW.dispatch runErrW evW).2) := by
  refine ⟨?_, ?_⟩
  · exact (claim_c2 runOkW edW evW).1 0 ⟨"A"⟩ 0 (by decide) (by decide)
  · refine (claim_c2 runErrW edW evW).2 0 ⟨"A"⟩ 1 (.str "h2") (.msg "boom")
      (by decide) ?_ (by decide) (by decide) ?_
    · intro i' e' h' hlt
      exact absurd hlt (Nat.not_lt_zero i')
    · intro j' h' hj' hne
      rw [show (mapFind edW.handlers (DEvent.mk "A").ctorName).getD []
          = [Ident.str "h1", Ident.str "h2"] from by decide] at hj'
      match j' with
      | 0 =>
        simp only [List.getElem?_cons_zero, Option.some.injEq] at hj'
        subst hj'
        decide
      | 1 => exact absurd rfl hne
      | j'' + 2 => simp at hj'
